import Mathlib

/-!
Verification of the codeindex corpus conformance checker and profile registry.

The Python sources embedded here are
  tools/corpus_check.py      (v2.3 ProjectIndex revision — the authoritative one)
  tools/regen_meta.py        (count_lines)
  tools/profile_registry.py  (resolve_profile, _match_glob)

JSON documents are modelled by the inductive type `Val`; Python's partial
operations (attribute access, subscripting, int() coercion, `<` comparison)
are modelled in `Except PyErr`, where `.error` stands for an uncaught Python
exception.  The error strings appended by the checker are modelled by the
structured type `Err`, one constructor per f-string in the source, each
carrying exactly the values that the corresponding message interpolates.
-/

/-- Kinds of Python exceptions raised by the modelled operations. -/
inductive PyErr where
  | typeError
  | valueError
  | keyError
  | attributeError
deriving DecidableEq, Repr

/-- A JSON value as produced by `json.loads`. -/
inductive Val where
  | vNull : Val
  | vBool : Bool → Val
  | vInt : Int → Val
  | vStr : String → Val
  | vList : List Val → Val
  | vDict : List (String × Val) → Val

namespace Val

/-- Is this value a Python dict?  (`isinstance(x, dict)`) -/
def isDict : Val → Bool
  | .vDict _ => true
  | _ => false

/-- Is this value a Python list?  (`isinstance(x, list)`) -/
def isList : Val → Bool
  | .vList _ => true
  | _ => false

end Val

/-- The apostrophe character, used when rendering Python `repr` of strings. -/
def quoteChar : Char := Char.ofNat 39

mutual

/-- Python `repr` of a JSON value (as interpolated by `f"... {o!r}"`).
Strings are rendered with surrounding single quotes (escaping is not
modelled; the checker only embeds reprs into error messages). -/
def pyRepr : Val → String
  | .vNull => "None"
  | .vBool b => if b then "True" else "False"
  | .vInt n => toString n
  | .vStr s => String.singleton quoteChar ++ s ++ String.singleton quoteChar
  | .vList xs => "[" ++ pyReprList xs ++ "]"
  | .vDict kvs => "\x7b" ++ pyReprDict kvs ++ "\x7d"

/-- Comma-separated reprs of a list's elements. -/
def pyReprList : List Val → String
  | [] => ""
  | [x] => pyRepr x
  | x :: xs => pyRepr x ++ ", " ++ pyReprList xs

/-- Comma-separated reprs of a dict's items. -/
def pyReprDict : List (String × Val) → String
  | [] => ""
  | [(k, v)] => String.singleton quoteChar ++ k ++ String.singleton quoteChar ++ ": " ++ pyRepr v
  | (k, v) :: kvs =>
      String.singleton quoteChar ++ k ++ String.singleton quoteChar ++ ": " ++ pyRepr v
        ++ ", " ++ pyReprDict kvs

end

/-- Python `str()` of a JSON value (total). -/
def pyStr : Val → String
  | .vStr s => s
  | v => pyRepr v

/-- Digits of a nonempty all-digit character list, else `none`. -/
def digitsVal : List Char → Option Nat
  | [] => none
  | cs =>
    if cs.all Char.isDigit then
      some (cs.foldl (fun acc c => 10 * acc + (c.toNat - 48)) 0)
    else none

/-- Python `int(s)` on a string: optional surrounding spaces, optional sign,
then decimal digits; anything else raises `ValueError`. -/
def parseIntStr (s : String) : Option Int :=
  let cs := s.toList.dropWhile (· = ' ')
  let cs := (cs.reverse.dropWhile (· = ' ')).reverse
  match cs with
  | '-' :: rest => (digitsVal rest).map (fun n => -(n : Int))
  | '+' :: rest => (digitsVal rest).map Int.ofNat
  | rest => (digitsVal rest).map Int.ofNat

/-- Python `int(x)`: ints pass through, bools coerce to 0/1, numeric strings
are parsed (`ValueError` otherwise); any other type raises `TypeError`. -/
def pyIntE : Val → Except PyErr Int
  | .vInt n => .ok n
  | .vBool b => .ok (if b then 1 else 0)
  | .vStr s =>
    match parseIntStr s with
    | some n => .ok n
    | none => .error .valueError
  | _ => .error .typeError

/-- Python `int(x)` as an `Option` (discards the exception kind). -/
def pyInt (v : Val) : Option Int :=
  match pyIntE v with
  | .ok n => some n
  | .error _ => none

/-- Does `int(x)` succeed? -/
def coercibleB (v : Val) : Bool :=
  match pyIntE v with
  | .ok _ => true
  | .error _ => false

/-- Python `d.get(k, default)`: only dicts have `.get`; anything else raises
`AttributeError`. -/
def pyGetD (o : Val) (k : String) (d : Val) : Except PyErr Val :=
  match o with
  | .vDict kvs => .ok ((List.lookup k kvs).getD d)
  | _ => .error .attributeError

/-- Python `d.get(k)` (default `None`). -/
def pyGetOpt (o : Val) (k : String) : Except PyErr Val :=
  pyGetD o k .vNull

/-- Python `o[k]` for a string key: `KeyError` on a dict without the key,
`TypeError` on any non-dict. -/
def pySubscript (o : Val) (k : String) : Except PyErr Val :=
  match o with
  | .vDict kvs =>
    match List.lookup k kvs with
    | some v => .ok v
    | none => .error .keyError
  | _ => .error .typeError

/-- Is the first character list a prefix of the second? -/
def startsSeq : List Char → List Char → Bool
  | [], _ => true
  | _ :: _, [] => false
  | a :: as', b :: bs => a == b && startsSeq as' bs

/-- Is the first character list a contiguous subsequence of the second?
(Python's substring test `k in s`.) -/
def containsSeq (needle : List Char) : List Char → Bool
  | [] => startsSeq needle []
  | c :: rest => startsSeq needle (c :: rest) || containsSeq needle rest

/-- Python `k in o` for a string `k`: key test on dicts, membership test on
lists (string equality against each element), substring test on strings;
`TypeError` on other types. -/
def pyContains (o : Val) (k : String) : Except PyErr Bool :=
  match o with
  | .vDict kvs => .ok (List.lookup k kvs).isSome
  | .vList xs =>
    .ok (xs.any fun x =>
      match x with
      | .vStr s => s == k
      | _ => false)
  | .vStr s => .ok (containsSeq k.toList s.toList)
  | _ => .error .typeError

/-- Lexicographic strict order on character lists, comparing code points
(Python's string `<`). -/
def strLtListB : List Char → List Char → Bool
  | [], [] => false
  | [], _ :: _ => true
  | _ :: _, [] => false
  | a :: as', b :: bs =>
    if a.toNat < b.toNat then true
    else if b.toNat < a.toNat then false
    else strLtListB as' bs

/-- Python's string `<` (lexicographic by code point), in executable form;
`strLtB_eq_decide` below identifies it with the standard order on `String`. -/
def strLtB (a b : String) : Bool := strLtListB a.toList b.toList

/-- Python `a < b` on JSON values: ints/bools compare numerically, strings
lexicographically; comparing across these families raises `TypeError`.
(Element-wise comparison of lists, which never arises for the ordering keys
this checker compares, is not modelled and also raises.) -/
def pyLt : Val → Val → Except PyErr Bool
  | .vInt a, .vInt b => .ok (decide (a < b))
  | .vInt a, .vBool b => .ok (decide (a < (if b then (1 : Int) else 0)))
  | .vBool a, .vInt b => .ok (decide ((if a then (1 : Int) else 0) < b))
  | .vBool a, .vBool b => .ok (!a && b)
  | .vStr a, .vStr b => .ok (strLtB a b)
  | _, _ => .error .typeError

/-- The function `_is_sorted` from corpus_check.py, generic over a possibly-raising
comparison (Python's duck-typed `<`): single forward scan keeping the
previous element; returns `False` at the first strict descent. -/
def is_sortedE {α : Type} (lt : α → α → Except PyErr Bool) : List α → Except PyErr Bool
  | [] => .ok true
  | x :: xs => is_sortedGo lt x xs
where
  /-- The scan loop of `_is_sorted` (`prev` is the previous element). -/
  is_sortedGo (lt : α → α → Except PyErr Bool) : α → List α → Except PyErr Bool
  | _, [] => .ok true
  | prev, x :: xs =>
    match lt x prev with
    | .error e => .error e
    | .ok b => if b then .ok false else is_sortedGo lt x xs

/-- The function `_is_sorted` specialised to a total boolean comparison (the case of the
well-typed occurrence-key tuples, whose `<` never raises). -/
def is_sortedB {α : Type} (lt : α → α → Bool) : List α → Bool
  | [] => true
  | x :: xs => is_sortedBGo lt x xs
where
  /-- Scan loop of the pure variant. -/
  is_sortedBGo (lt : α → α → Bool) : α → List α → Bool
  | _, [] => true
  | prev, x :: xs => if lt x prev then false else is_sortedBGo lt x xs

theorem is_sortedE_of_pure {α : Type} (lt : α → α → Bool) (l : List α) :
    is_sortedE (fun a b => .ok (lt a b)) l = .ok (is_sortedB lt l) := by
  cases l with
  | nil => rfl
  | cons x xs =>
    show is_sortedE.is_sortedGo _ x xs = .ok (is_sortedB.is_sortedBGo lt x xs)
    induction xs generalizing x with
    | nil => rfl
    | cons y ys ih =>
      simp only [is_sortedE.is_sortedGo, is_sortedB.is_sortedBGo]
      by_cases h : lt y x <;> simp [h, ih]

/-! ### Occurrence ordering keys (corpus_check.py lines 109–126) -/

/-- The ordering-key tuple `(str(o['file_id']), int(o['line']),
int(o['col_start']), int(o['col_end']))` built per occurrence. -/
structure OccKey where
  file_id : String
  line : Int
  col_start : Int
  col_end : Int
deriving DecidableEq, Repr

/-- Python `<` on the 4-tuples: lexicographic. -/
def OccKey.ltB (a b : OccKey) : Bool :=
  if a.file_id ≠ b.file_id then strLtB a.file_id b.file_id
  else if a.line ≠ b.line then decide (a.line < b.line)
  else if a.col_start ≠ b.col_start then decide (a.col_start < b.col_start)
  else decide (a.col_end < b.col_end)

/-- Build one occurrence's key; any failure (missing key, non-dict entry,
uncoercible field) is the exception the `try` block catches. -/
def occKey (o : Val) : Except PyErr OccKey :=
  match pySubscript o "file_id" with
  | .error e => .error e
  | .ok fv =>
    match pySubscript o "line" with
    | .error e => .error e
    | .ok lv =>
      match pyIntE lv with
      | .error e => .error e
      | .ok l =>
        match pySubscript o "col_start" with
        | .error e => .error e
        | .ok sv =>
          match pyIntE sv with
          | .error e => .error e
          | .ok cs =>
            match pySubscript o "col_end" with
            | .error e => .error e
            | .ok ev =>
              match pyIntE ev with
              | .error e => .error e
              | .ok ce => .ok ⟨pyStr fv, l, cs, ce⟩

/-! ### SHA-256 (Python `hashlib.sha256(...).hexdigest()`).
The checker delegates hashing to the standard library; the full algorithm is
reproduced here so that digests are computable inside the model.  Words are
`Nat`s reduced modulo 2^32. -/

/-- The constant 2^32. -/
def M32 : Nat := 4294967296

/-- Addition modulo 2^32. -/
def add32 (a b : Nat) : Nat := (a + b) % M32

/-- Rotate a 32-bit word right by `n` bits. -/
def rotr32 (x n : Nat) : Nat := ((x >>> n) ||| (x <<< (32 - n))) % M32

/-- SHA-256 Σ₀. -/
def bSigma0 (x : Nat) : Nat := rotr32 x 2 ^^^ rotr32 x 13 ^^^ rotr32 x 22

/-- SHA-256 Σ₁. -/
def bSigma1 (x : Nat) : Nat := rotr32 x 6 ^^^ rotr32 x 11 ^^^ rotr32 x 25

/-- SHA-256 σ₀. -/
def sSigma0 (x : Nat) : Nat := rotr32 x 7 ^^^ rotr32 x 18 ^^^ (x >>> 3)

/-- SHA-256 σ₁. -/
def sSigma1 (x : Nat) : Nat := rotr32 x 17 ^^^ rotr32 x 19 ^^^ (x >>> 10)

/-- SHA-256 Ch. -/
def chF (x y z : Nat) : Nat := (x &&& y) ^^^ ((x ^^^ 4294967295) &&& z)

/-- SHA-256 Maj. -/
def majF (x y z : Nat) : Nat := (x &&& y) ^^^ (x &&& z) ^^^ (y &&& z)

/-- The 64 SHA-256 round constants. -/
def sha256K : List Nat :=
  [1116352408, 1899447441, 3049323471, 3921009573,
   961987163, 1508970993, 2453635748, 2870763221,
   3624381080, 310598401, 607225278, 1426881987,
   1925078388, 2162078206, 2614888103, 3248222580,
   3835390401, 4022224774, 264347078, 604807628,
   770255983, 1249150122, 1555081692, 1996064986,
   2554220882, 2821834349, 2952996808, 3210313671,
   3336571891, 3584528711, 113926993, 338241895,
   666307205, 773529912, 1294757372, 1396182291,
   1695183700, 1986661051, 2177026350, 2456956037,
   2730485921, 2820302411, 3259730800, 3345764771,
   3516065817, 3600352804, 4094571909, 275423344,
   430227734, 506948616, 659060556, 883997877,
   958139571, 1322822218, 1537002063, 1747873779,
   1955562222, 2024104815, 2227730452, 2361852424,
   2428436474, 2756734187, 3204031479, 3329325298]

/-- The initial SHA-256 hash state. -/
def sha256H0 : List Nat :=
  [1779033703, 3144134277, 1013904242, 2773480762,
   1359893119, 2600822924, 528734635, 1541459225]

/-- Big-endian 8-byte encoding of the bit length. -/
def lenBytes64 (bits : Nat) : List Nat :=
  (List.range 8).map fun i => (bits >>> (8 * (7 - i))) &&& 255

/-- SHA-256 message padding: 0x80, zeros to 56 mod 64, 8-byte bit length. -/
def padMsg (data : List Nat) : List Nat :=
  let L := data.length
  let r := (L + 1) % 64
  let k := (64 + 56 - r) % 64
  data ++ [0x80] ++ List.replicate k 0 ++ lenBytes64 (L * 8)

/-- Split into 64-byte blocks (fuel-based structural recursion; each step
consumes at least one byte, so `l.length` steps always suffice). -/
def chunksGo : Nat → List Nat → List (List Nat)
  | 0, _ => []
  | _, [] => []
  | n + 1, l => l.take 64 :: chunksGo n (l.drop 64)

/-- Split into 64-byte blocks. -/
def chunks64 (l : List Nat) : List (List Nat) :=
  chunksGo l.length l

/-- Big-endian 32-bit words of a block. -/
def toWords : List Nat → List Nat
  | b0 :: b1 :: b2 :: b3 :: rest => (((b0 * 256 + b1) * 256 + b2) * 256 + b3) :: toWords rest
  | _ => []

/-- Extend a 16-word block schedule by `k` further words. -/
def extendSchedule (w : List Nat) : Nat → List Nat
  | 0 => w
  | k + 1 =>
    let prev := extendSchedule w k
    let i := prev.length
    prev ++ [add32 (add32 (sSigma1 (prev.getD (i - 2) 0)) (prev.getD (i - 7) 0))
                   (add32 (sSigma0 (prev.getD (i - 15) 0)) (prev.getD (i - 16) 0))]

/-- One SHA-256 compression round on the 8-word working state. -/
def sha256Round (st : List Nat) (kt wt : Nat) : List Nat :=
  match st with
  | [a, b, c, d, e, f, g, h] =>
    let t1 := add32 h (add32 (bSigma1 e) (add32 (chF e f g) (add32 kt wt)))
    let t2 := add32 (bSigma0 a) (majF a b c)
    [add32 t1 t2, a, b, c, add32 d t1, e, f, g]
  | other => other

/-- Compress one 64-byte block into the running hash state. -/
def compressBlock (h : List Nat) (block : List Nat) : List Nat :=
  let w := extendSchedule (toWords block) 48
  let st := (sha256K.zip w).foldl (fun st kw => sha256Round st kw.1 kw.2) h
  List.zipWith add32 h st

/-- The eight 32-bit words of the SHA-256 digest. -/
def sha256Words (data : List Nat) : List Nat :=
  (chunks64 (padMsg data)).foldl compressBlock sha256H0

/-- Lowercase hex digit. -/
def hexDigit (n : Nat) : Char :=
  if n < 10 then Char.ofNat (48 + n) else Char.ofNat (87 + n)

/-- Eight lowercase hex digits of a 32-bit word. -/
def word8Hex (w : Nat) : List Char :=
  (List.range 8).map fun i => hexDigit ((w >>> (4 * (7 - i))) &&& 15)

/-- Python `hashlib.sha256(data).hexdigest()`. -/
def sha256Hex (data : List Nat) : String :=
  String.mk ((sha256Words data).map word8Hex).flatten

/-! ### UTF-8 decoding with replacement
(`data.decode('utf-8', errors='replace')`, used by `_file_meta` in
corpus_check.py and by regen_meta.py).  A Python `str` is modelled as a
`List Char` of code points. -/

/-- U+FFFD, the replacement character. -/
def replChar : Char := Char.ofNat 0xFFFD

/-- Is this byte a UTF-8 continuation byte (0x80–0xBF)? -/
def isCont (b : Nat) : Bool := 128 ≤ b && b < 192

/-- Valid range of the first continuation byte of a 3-byte sequence
(excludes overlong encodings after 0xE0 and surrogates after 0xED). -/
def cont1ok3 (b c : Nat) : Bool :=
  if b = 224 then 160 ≤ c && c < 192
  else if b = 237 then 128 ≤ c && c < 160
  else isCont c

/-- Valid range of the first continuation byte of a 4-byte sequence
(excludes overlong encodings after 0xF0 and values above U+10FFFF after 0xF4). -/
def cont1ok4 (b c : Nat) : Bool :=
  if b = 240 then 144 ≤ c && c < 192
  else if b = 244 then 128 ≤ c && c < 144
  else isCont c

/-- Worker for `decodeReplace` (fuel-based structural recursion; every step
consumes at least one byte, so `data.length` steps always suffice). -/
def decodeGo : Nat → List Nat → List Char
  | 0, _ => []
  | _ + 1, [] => []
  | fuel + 1, b :: rest =>
    if b < 128 then Char.ofNat b :: decodeGo fuel rest
    else if 194 ≤ b && b ≤ 223 then
      match rest with
      | [] => [replChar]
      | c1 :: rest1 =>
        if isCont c1 then Char.ofNat ((b - 192) * 64 + (c1 - 128)) :: decodeGo fuel rest1
        else replChar :: decodeGo fuel rest
    else if 224 ≤ b && b ≤ 239 then
      match rest with
      | [] => [replChar]
      | c1 :: rest1 =>
        if cont1ok3 b c1 then
          match rest1 with
          | [] => [replChar]
          | c2 :: rest2 =>
            if isCont c2 then
              Char.ofNat (((b - 224) * 64 + (c1 - 128)) * 64 + (c2 - 128)) :: decodeGo fuel rest2
            else replChar :: decodeGo fuel rest1
        else replChar :: decodeGo fuel rest
    else if 240 ≤ b && b ≤ 244 then
      match rest with
      | [] => [replChar]
      | c1 :: rest1 =>
        if cont1ok4 b c1 then
          match rest1 with
          | [] => [replChar]
          | c2 :: rest2 =>
            if isCont c2 then
              match rest2 with
              | [] => [replChar]
              | c3 :: rest3 =>
                if isCont c3 then
                  Char.ofNat ((((b - 240) * 64 + (c1 - 128)) * 64 + (c2 - 128)) * 64 + (c3 - 128))
                    :: decodeGo fuel rest3
                else replChar :: decodeGo fuel rest2
            else replChar :: decodeGo fuel rest1
        else replChar :: decodeGo fuel rest
    else replChar :: decodeGo fuel rest

/-- UTF-8 decoding with `errors='replace'`: a malformed or truncated sequence
contributes one U+FFFD for its maximal valid prefix and decoding resumes at
the offending byte. -/
def decodeReplace (data : List Nat) : List Char :=
  decodeGo data.length data

/-- Does the text end with a newline?  (`text.endswith('\n')`) -/
def endsWithNL (text : List Char) : Bool := text.getLast? = some '\n'

/-- The function `_file_meta` from corpus_check.py: the `(bytes, lines, sha256)` triple of
a file's raw content (`path.read_bytes()` is modelled by passing the byte
content directly). -/
def _file_meta (data : List Nat) : Nat × Nat × String :=
  let sha := sha256Hex data
  let text := decodeReplace data
  let lines := text.count '\n'
  let lines := if 0 < text.length && !endsWithNL text then lines + 1 else lines
  (data.length, lines, sha)

/-- The function `count_lines` from regen_meta.py. -/
def count_lines (text : List Char) : Nat :=
  if text = [] then 0
  else
    let n := text.count '\n'
    if !endsWithNL text then n + 1 else n

/-! ### The checker's error records.
One constructor per error f-string in corpus_check.py, carrying exactly the
values the message interpolates (interpolated JSON values are carried as the
`str()`/`repr()` text the f-string would render).  The leading
`{expected_path}: ` prefix common to every message is contextual and not
carried; `tagged i e` models the re-tagging
`e.replace(str(expected_path), f"{expected_path} (indexes[{i}])")`
performed by `check_project_index`. -/
inductive Err where
  | malformedFilesEntry (entry : String)
  | inputFileMissing (file_id : String)
  | bytesMismatch (file_id stated : String) (actual : Nat)
  | linesMismatch (file_id stated : String) (actual : Nat)
  | shaMismatch (file_id : String)
  | symbolsNotArray
  | symbolsNotSorted
  | occurrencesNotArray (ident : String)
  | malformedOccurrence (ident entry : String)
  | occurrencesNotSorted (ident : String)
  | duplicateOccurrences (ident : String)
  | occurrenceCountMismatch (ident stated : String) (actual : Nat)
  | uniqueLineCountMismatch (ident stated : String) (actual : Nat)
  | indexesNotArray
  | indexesNotSorted
  | indexNotObject (i : Nat)
  | tagged (i : Nat) (e : Err)
deriving DecidableEq, Repr

/-! ### `_check_file_metadata` (corpus_check.py lines 54–82) -/

/-- The `'bytes' in f and int(f['bytes']) != bytes_actual` check. -/
def bytesCheck (fid : String) (kvs : List (String × Val)) (actual : Nat) :
    Except PyErr (List Err) :=
  match List.lookup "bytes" kvs with
  | none => .ok []
  | some v =>
    match pyIntE v with
    | .error e => .error e
    | .ok n => .ok (if n ≠ (actual : Int) then [.bytesMismatch fid (pyStr v) actual] else [])

/-- The `'lines' in f and int(f['lines']) != lines_actual` check. -/
def linesCheck (fid : String) (kvs : List (String × Val)) (actual : Nat) :
    Except PyErr (List Err) :=
  match List.lookup "lines" kvs with
  | none => .ok []
  | some v =>
    match pyIntE v with
    | .error e => .error e
    | .ok n => .ok (if n ≠ (actual : Int) then [.linesMismatch fid (pyStr v) actual] else [])

/-- The `'sha256' in f and str(f['sha256']) != sha_actual` check (note the
message carries no digest values). -/
def shaCheck (fid : String) (kvs : List (String × Val)) (actual : String) : List Err :=
  match List.lookup "sha256" kvs with
  | none => []
  | some v => if pyStr v ≠ actual then [.shaMismatch fid] else []

/-- Loop body of `_check_file_metadata` for one `files[]` entry: extract
`file_id` (any exception ⇒ one malformed-entry error), locate the input file
(absent ⇒ one missing-file error and no further checks), then compare only
the fields present on the record.  `fs` maps a `file_id` to the byte content
of `inputs_dir / file_id` (absent key = file does not exist). -/
def checkFileEntry (fs : List (String × List Nat)) (f : Val) : Except PyErr (List Err) :=
  match pySubscript f "file_id" with
  | .error _ => .ok [.malformedFilesEntry (pyRepr f)]
  | .ok fidV =>
    let fid := pyStr fidV
    match List.lookup fid fs with
    | none => .ok [.inputFileMissing fid]
    | some data =>
      let m := _file_meta data
      match f with
      | .vDict kvs =>
        match bytesCheck fid kvs m.1 with
        | .error e => .error e
        | .ok eb =>
          match linesCheck fid kvs m.2.1 with
          | .error e => .error e
          | .ok el => .ok (eb ++ el ++ shaCheck fid kvs m.2.2)
      | _ => .ok []

/-- The `for f in files` loop of `_check_file_metadata`. -/
def filesFold (fs : List (String × List Nat)) : List Val → Except PyErr (List Err)
  | [] => .ok []
  | f :: rest =>
    match checkFileEntry fs f with
    | .error e => .error e
    | .ok es =>
      match filesFold fs rest with
      | .error e => .error e
      | .ok rs => .ok (es ++ rs)

/-- The function `_check_file_metadata`: `doc.get('files', [])`; a non-list value yields
no errors; otherwise check every entry. -/
def _check_file_metadata (doc : Val) (fs : List (String × List Nat)) :
    Except PyErr (List Err) :=
  match pyGetD doc "files" (.vList []) with
  | .error e => .error e
  | .ok (.vList files) => filesFold fs files
  | .ok _ => .ok []

/-! ### Per-symbol checks (corpus_check.py lines 102–140) -/

/-- The `for o in occs` key-building loop: each occurrence either contributes
its ordering key or (exception caught) exactly one malformed-occurrence
error, and is then excluded from the key list. -/
def buildKeys (ident : String) : List Val → List OccKey × List Err
  | [] => ([], [])
  | o :: rest =>
    let (ks, es) := buildKeys ident rest
    match occKey o with
    | .ok k => (k :: ks, es)
    | .error _ => (ks, .malformedOccurrence ident (pyRepr o) :: es)

/-- The set comprehension
`{(str(o.get('file_id')), int(o.get('line'))) for o in occs if 'file_id' in o and 'line' in o}`
(its elements, in iteration order; only the number of distinct pairs is used). -/
def collectPairs : List Val → Except PyErr (List (String × Int))
  | [] => .ok []
  | o :: rest =>
    match pyContains o "file_id" with
    | .error e => .error e
    | .ok false => collectPairs rest
    | .ok true =>
      match pyContains o "line" with
      | .error e => .error e
      | .ok false => collectPairs rest
      | .ok true =>
        match pyGetOpt o "file_id" with
        | .error e => .error e
        | .ok fidV =>
          match pyGetOpt o "line" with
          | .error e => .error e
          | .ok lineV =>
            match pyIntE lineV with
            | .error e => .error e
            | .ok l =>
              match collectPairs rest with
              | .error e => .error e
              | .ok ps => .ok ((pyStr fidV, l) :: ps)

/-- The `oc is not None and int(oc) != len(occs)` check.  Note the comparison
is against the length of the FULL occurrence list `occs`, malformed entries
included. -/
def ocErr (ident : String) (occs : List Val) (oc : Val) : Except PyErr (List Err) :=
  match oc with
  | .vNull => .ok []
  | v =>
    match pyIntE v with
    | .error e => .error e
    | .ok n =>
      .ok (if n ≠ (occs.length : Int) then
             [.occurrenceCountMismatch ident (pyStr v) occs.length]
           else [])

/-- The `ul is not None` branch: count distinct `(file_id, line)` pairs over
ALL occurrences carrying both fields (malformed entries included), then
compare `int(ul)` against that count. -/
def ulErr (ident : String) (occs : List Val) (ul : Val) : Except PyErr (List Err) :=
  match ul with
  | .vNull => .ok []
  | v =>
    match collectPairs occs with
    | .error e => .error e
    | .ok pairs =>
      let n := pairs.dedup.length
      match pyIntE v with
      | .error e => .error e
      | .ok u =>
        .ok (if u ≠ (n : Int) then [.uniqueLineCountMismatch ident (pyStr v) n] else [])

/-- The `stats = s.get('stats'); if isinstance(stats, dict)` block. -/
def statsErrs (ident : String) (occs : List Val) (s : Val) : Except PyErr (List Err) :=
  match pyGetOpt s "stats" with
  | .error e => .error e
  | .ok (.vDict kvs) =>
    match ocErr ident occs ((List.lookup "occurrence_count" kvs).getD .vNull) with
    | .error e => .error e
    | .ok e3 =>
      match ulErr ident occs ((List.lookup "unique_line_count" kvs).getD .vNull) with
      | .error e => .error e
      | .ok e4 => .ok (e3 ++ e4)
  | .ok _ => .ok []

/-- Ordering, duplicate and stats checks of one symbol, given its extracted
identifier text and occurrence list. -/
def checkSymbolBody (ident : String) (occs : List Val) (s : Val) : Except PyErr (List Err) :=
  let kp := buildKeys ident occs
  let e1 := if is_sortedB OccKey.ltB kp.1 then [] else [Err.occurrencesNotSorted ident]
  let e2 := if kp.1.length ≠ kp.1.dedup.length then [Err.duplicateOccurrences ident] else []
  match statsErrs ident occs s with
  | .error e => .error e
  | .ok e34 => .ok (kp.2 ++ e1 ++ e2 ++ e34)

/-- Loop body of `check_symbol_index_doc` for one entry of `symbols`. -/
def checkSymbol (s : Val) : Except PyErr (List Err) :=
  match pyGetD s "identifier" (.vStr "<missing>") with
  | .error e => .error e
  | .ok identV =>
    let ident := pyStr identV
    match pyGetD s "occurrences" (.vList []) with
    | .error e => .error e
    | .ok (.vList occs) => checkSymbolBody ident occs s
    | .ok _ => .ok [.occurrencesNotArray ident]

/-- The `for s in symbols` loop. -/
def checkAllSymbols : List Val → Except PyErr (List Err)
  | [] => .ok []
  | s :: rest =>
    match checkSymbol s with
    | .error e => .error e
    | .ok es =>
      match checkAllSymbols rest with
      | .error e => .error e
      | .ok rs => .ok (es ++ rs)

/-- The comprehension `idents = [s.get('identifier', '') for s in symbols]`. -/
def identsOf : List Val → Except PyErr (List Val)
  | [] => .ok []
  | s :: rest =>
    match pyGetD s "identifier" (.vStr "") with
    | .error e => .error e
    | .ok v =>
      match identsOf rest with
      | .error e => .error e
      | .ok vs => .ok (v :: vs)

/-- The function `check_symbol_index_doc` from corpus_check.py.  `fs` is the content of
the case's `inputs` directory (by file id); `inputsDirExists` is
`inputs_dir.exists()`. -/
def check_symbol_index_doc (doc : Val) (fs : List (String × List Nat))
    (inputsDirExists : Bool) : Except PyErr (List Err) :=
  match (if inputsDirExists then _check_file_metadata doc fs else .ok []) with
  | .error e => .error e
  | .ok metaErrs =>
    match pyGetD doc "symbols" (.vList []) with
    | .error e => .error e
    | .ok (.vList symbols) =>
      match identsOf symbols with
      | .error e => .error e
      | .ok idents =>
        match is_sortedE pyLt idents with
        | .error e => .error e
        | .ok srt =>
          let e1 := if srt then [] else [Err.symbolsNotSorted]
          match checkAllSymbols symbols with
          | .error e => .error e
          | .ok symErrs => .ok (metaErrs ++ e1 ++ symErrs)
    | .ok _ => .ok (metaErrs ++ [Err.symbolsNotArray])

/-! ### `check_project_index` (corpus_check.py lines 145–165) -/

/-- The comprehension `profile_ids = [idx.get('profile_id', '') for idx in indexes]` — note
this comprehension runs over ALL entries before any `isinstance` check, so a
non-dict entry raises here. -/
def profileIdsOf : List Val → Except PyErr (List Val)
  | [] => .ok []
  | idx :: rest =>
    match pyGetD idx "profile_id" (.vStr "") with
    | .error e => .error e
    | .ok v =>
      match profileIdsOf rest with
      | .error e => .error e
      | .ok vs => .ok (v :: vs)

/-- One iteration of the `for i, idx in enumerate(indexes)` loop: a non-dict
entry yields one not-an-object error; a dict entry is validated as a
SymbolIndex and its errors are re-tagged with the entry's position `i`. -/
def checkOneIndex (fs : List (String × List Nat)) (inputsDirExists : Bool)
    (i : Nat) (idx : Val) : Except PyErr (List Err) :=
  match idx with
  | .vDict _ =>
    match check_symbol_index_doc idx fs inputsDirExists with
    | .error e => .error e
    | .ok es => .ok (es.map (Err.tagged i))
  | _ => .ok [Err.indexNotObject i]

/-- The `for i, idx in enumerate(indexes)` loop. -/
def checkIndexes (fs : List (String × List Nat)) (inputsDirExists : Bool) :
    Nat → List Val → Except PyErr (List Err)
  | _, [] => .ok []
  | i, idx :: rest =>
    match checkOneIndex fs inputsDirExists i idx with
    | .error e => .error e
    | .ok cur =>
      match checkIndexes fs inputsDirExists (i + 1) rest with
      | .error e => .error e
      | .ok rs => .ok (cur ++ rs)

/-- The function `check_project_index` from corpus_check.py. -/
def check_project_index (doc : Val) (fs : List (String × List Nat))
    (inputsDirExists : Bool) : Except PyErr (List Err) :=
  match pyGetD doc "indexes" (.vList []) with
  | .error e => .error e
  | .ok (.vList indexes) =>
    match profileIdsOf indexes with
    | .error e => .error e
    | .ok pids =>
      match is_sortedE pyLt pids with
      | .error e => .error e
      | .ok srt =>
        let e1 := if srt then [] else [Err.indexesNotSorted]
        match checkIndexes fs inputsDirExists 0 indexes with
        | .error e => .error e
        | .ok rest => .ok (e1 ++ rest)
  | .ok _ => .ok [Err.indexesNotArray]

/-! ### `main` (corpus_check.py lines 168–203) -/

/-- The version-discriminant test
`isinstance(doc, dict) and doc.get('schema_version') == '2.3'`. -/
def isProjectWrapper : Val → Bool
  | .vDict kvs =>
    match List.lookup "schema_version" kvs with
    | some (.vStr s) => s == "2.3"
    | _ => false
  | _ => false

/-- Per-document dispatch in `main`'s loop: the project-wrapper validator
for `schema_version == '2.3'` dicts, the plain SymbolIndex validator for
EVERYTHING else (there is no unrecognized-version branch). -/
def processDoc (doc : Val) (fs : List (String × List Nat)) (inputsDirExists : Bool) :
    Except PyErr (List Err) :=
  if isProjectWrapper doc then check_project_index doc fs inputsDirExists
  else check_symbol_index_doc doc fs inputsDirExists

/-- One discovered expected-output document: the result of `json.loads`
(`.error` meaning the parse raised), the content of the case's `inputs`
directory, and whether that directory exists. -/
structure DocCase where
  parsed : Except PyErr Val
  fsys : List (String × List Nat)
  inputsDirExists : Bool

/-- The `for p in expected_files` loop of `main`: parse each document (a
parse failure propagates and aborts the whole pass) and accumulate the
errors of all documents. -/
def collectAllErrs : List DocCase → Except PyErr (List Err)
  | [] => .ok []
  | c :: rest =>
    match c.parsed with
    | .error e => .error e
    | .ok doc =>
      match processDoc doc c.fsys c.inputsDirExists with
      | .error e => .error e
      | .ok es =>
        match collectAllErrs rest with
        | .error e => .error e
        | .ok rs => .ok (es ++ rs)

/-- The success line `f'Corpus contract check: OK ({n} files)'`. -/
def okLine (n : Nat) : String :=
  "Corpus contract check: OK (" ++ toString n ++ " files)"

/-- The function `main` from corpus_check.py: exit code and, on success, the OK line.
Corpus-root discovery is abstracted to whether the root exists and the list
of discovered documents; `.ok (code, line)` is a normal exit, `.error` an
uncaught exception (which makes the interpreter exit nonzero without
reaching the success/failure reporting). -/
def mainModel (corpusRootExists : Bool) (cases : List DocCase) :
    Except PyErr (Nat × Option String) :=
  if !corpusRootExists then .ok (1, none)
  else if cases.isEmpty then .ok (1, none)
  else
    match collectAllErrs cases with
    | .error e => .error e
    | .ok allErrs =>
      if allErrs.isEmpty then .ok (0, some (okLine cases.length))
      else .ok (1, none)

/-! ### Profile registry (profile_registry.py).

The glob matcher itself is delegated by the source to the external
`pathspec` library (git-wildmatch semantics) with a weaker `Path.match`
fallback when that library is missing; neither matcher's code is part of
this repository.  Modelled from the spec: gitignore-style wildcard
semantics, where a `**` pattern segment matches across path-segment
boundaries, `*` and `?` match within one segment. -/

/-- Worker for `fnSeg` (fuel-based structural recursion: every step consumes
at least one pattern or subject character, so `p.length + s.length + 1`
steps always suffice and the fuel-exhausted case is unreachable). -/
def fnSegGo : Nat → List Char → List Char → Bool
  | 0, _, _ => false
  | _ + 1, [], [] => true
  | fuel + 1, '*' :: ps, s =>
    fnSegGo fuel ps s ||
      (match s with
       | [] => false
       | _ :: t => fnSegGo fuel ('*' :: ps) t)
  | fuel + 1, '?' :: ps, _ :: t => fnSegGo fuel ps t
  | fuel + 1, c :: ps, d :: t => c == d && fnSegGo fuel ps t
  | _ + 1, _ :: _, [] => false
  | _ + 1, [], _ :: _ => false

/-- Match one glob segment against one path segment (`*`, `?`, literals;
neither wildcard crosses a `/`). -/
def fnSeg (p s : List Char) : Bool :=
  fnSegGo (p.length + s.length + 1) p s

/-- Worker for `segMatch` (fuel-based, same argument as `fnSegGo`). -/
def segMatchGo : Nat → List (List Char) → List (List Char) → Bool
  | 0, _, _ => false
  | _ + 1, [], [] => true
  | fuel + 1, p :: ps, segs =>
    if p = ['*', '*'] then
      segMatchGo fuel ps segs ||
        (match segs with
         | [] => false
         | _ :: rest => segMatchGo fuel (p :: ps) rest)
    else
      match segs with
      | s :: rest => fnSeg p s && segMatchGo fuel ps rest
      | [] => false
  | _ + 1, [], _ :: _ => false

/-- Match a glob split into segments against a path split into segments; a
`**` segment matches zero or more whole path segments. -/
def segMatch (ps segs : List (List Char)) : Bool :=
  segMatchGo (ps.length + segs.length + 1) ps segs

/-- Split a character list at `'/'` separators (the path/pattern
segmentation `splitOn "/"` performs for this single-character separator). -/
def splitSegs : List Char → List (List Char)
  | [] => [[]]
  | c :: rest =>
    if c = '/' then [] :: splitSegs rest
    else
      match splitSegs rest with
      | seg :: segs => (c :: seg) :: segs
      | [] => [[c]]

/-- The function `_match_glob` from profile_registry.py.  Modelled from the spec:
gitignore-style `**`-across-segments semantics (the richer of the two
library-dependent code paths in the source; see module comment above). -/
def _match_glob (pattern rel_posix : String) : Bool :=
  segMatch (splitSegs pattern.toList) (splitSegs rel_posix.toList)

/-- A registry rule `{match: {glob: pattern}, profile: alias}`. -/
structure Rule where
  glob : String
  profile : String
deriving DecidableEq, Repr

/-- A parsed registry document: `profiles` (alias → definition path) and the
ordered `rules` list. -/
structure Registry where
  profiles : List (String × String)
  rules : List Rule
deriving DecidableEq, Repr

/-- Failure modes of `resolve_profile` (both `raise ValueError` in the
source). -/
inductive RegError where
  | unknownAlias (alias_ : String)
  | noMatch (rel : String)
deriving DecidableEq, Repr

/-- The `for rule in rules` loop of `resolve_profile`. -/
def resolveRules (profiles : List (String × String)) (rel : String) :
    List Rule → Except RegError (String × String)
  | [] => .error (.noMatch rel)
  | r :: rest =>
    if _match_glob r.glob rel then
      match List.lookup r.profile profiles with
      | some p => .ok (r.profile, p)
      | none => .error (.unknownAlias r.profile)
    else resolveRules profiles rel rest

/-- The function `resolve_profile` from profile_registry.py, taking the already
normalized root-relative forward-slash path (the source's
`os.path.relpath(...)/as_posix()` step). -/
def resolve_profile (reg : Registry) (rel : String) : Except RegError (String × String) :=
  resolveRules reg.profiles rel reg.rules

/-! ### Helper lemmas -/

/-- The function `buildKeys` in closed form: the keys are the successfully extracted ones
in order, and there is exactly one malformed-occurrence error per failing
entry, in order. -/
theorem buildKeys_eq (ident : String) (occs : List Val) :
    buildKeys ident occs =
      ((occs.filterMap fun o => (occKey o).toOption),
       ((occs.filter fun o => !(occKey o).isOk).map
          fun o => Err.malformedOccurrence ident (pyRepr o))) := by
  induction occs with
  | nil => rfl
  | cons o rest ih =>
    cases h : occKey o <;>
      simp [buildKeys, ih, h, List.filterMap_cons, List.filter_cons, Except.toOption,
        Except.isOk, Except.toBool]

/-- The pure `_is_sorted` decides exactly "each element is ≥ its
predecessor" for any linear order. -/
theorem is_sortedB_eq_chain {α : Type} [LinearOrder α] (l : List α) :
    is_sortedB (fun a b => decide (a < b)) l = decide (List.Chain' (· ≤ ·) l) := by
  cases l with
  | nil => rfl
  | cons x xs =>
    show is_sortedB.is_sortedBGo _ x xs = _
    induction xs generalizing x with
    | nil => simp [is_sortedB.is_sortedBGo]
    | cons y ys ih =>
      by_cases h : y < x
      · simp [is_sortedB.is_sortedBGo, h, List.chain'_cons, not_le.mpr h]
      · simp [is_sortedB.is_sortedBGo, h, List.chain'_cons, not_lt.mp h, ih]

/-- On lists of strings, the raising `_is_sorted` never raises and agrees
with the pure variant. -/
theorem is_sortedE_strings (strs : List String) :
    is_sortedE pyLt (strs.map Val.vStr) = .ok (is_sortedB strLtB strs) := by
  cases strs with
  | nil => rfl
  | cons x xs =>
    show is_sortedE.is_sortedGo _ (Val.vStr x) (xs.map Val.vStr) = _
    induction xs generalizing x with
    | nil => rfl
    | cons y ys ih =>
      cases h : strLtB y x <;>
        simp [is_sortedE.is_sortedGo, is_sortedB, is_sortedB.is_sortedBGo, pyLt, h, ih]

/-- The executable character-list comparison is exactly the lexicographic
strict order. -/
theorem strLtListB_iff (l₁ l₂ : List Char) :
    strLtListB l₁ l₂ = true ↔ List.Lex (· < ·) l₁ l₂ := by
  induction l₁ generalizing l₂ with
  | nil =>
    cases l₂ with
    | nil =>
      simp only [strLtListB, Bool.false_eq_true, false_iff]
      exact List.Lex.not_nil_right _ _
    | cons b bs =>
      simp only [strLtListB, true_iff]
      exact List.Lex.nil
  | cons a as ih =>
    cases l₂ with
    | nil =>
      simp only [strLtListB, Bool.false_eq_true, false_iff]
      exact List.Lex.not_nil_right _ _
    | cons b bs =>
      by_cases h1 : a.toNat < b.toNat
      · simp only [strLtListB, h1, if_true, true_iff]
        exact List.Lex.rel h1
      · by_cases h2 : b.toNat < a.toNat
        · simp only [strLtListB, h1, h2, if_false, if_true, Bool.false_eq_true, false_iff]
          intro hlex
          cases hlex with
          | rel h => exact h1 h
          | cons h => exact Nat.lt_irrefl _ h2
        · have hab : a = b := by
            have hn : a.toNat = b.toNat :=
              Nat.le_antisymm (Nat.not_lt.mp h2) (Nat.not_lt.mp h1)
            have := congrArg Char.ofNat hn
            rwa [Char.ofNat_toNat, Char.ofNat_toNat] at this
          subst hab
          simp only [strLtListB, h1, h2, if_false]
          rw [List.Lex.cons_iff]
          exact ih bs

/-- The comparison `strLtB` is exactly the standard strict order on `String`. -/
theorem strLtB_iff (a b : String) : strLtB a b = true ↔ a < b := by
  refine (strLtListB_iff a.toList b.toList).trans ?_
  exact Iff.trans (Iff.of_eq rfl) String.lt_iff_toList_lt.symm

/-- The pure `_is_sorted` under the executable string comparison decides the
non-decreasing property for the standard order on `String`. -/
theorem is_sortedB_str (l : List String) :
    is_sortedB strLtB l = decide (List.Chain' (· ≤ ·) l) := by
  cases l with
  | nil => simp [is_sortedB]
  | cons x xs =>
    show is_sortedB.is_sortedBGo _ x xs = _
    induction xs generalizing x with
    | nil => simp [is_sortedB.is_sortedBGo]
    | cons y ys ih =>
      by_cases h : y < x
      · have hb : strLtB y x = true := (strLtB_iff y x).mpr h
        simp only [is_sortedB.is_sortedBGo, hb, if_true]
        rw [eq_comm, decide_eq_false_iff_not, List.chain'_cons]
        exact fun hc => (not_le.mpr h) hc.1
      · have hb : strLtB y x = false := by
          cases hv : strLtB y x
          · rfl
          · exact absurd ((strLtB_iff y x).mp hv) h
        simp only [is_sortedB.is_sortedBGo, hb, Bool.false_eq_true, if_false, ih]
        rw [decide_eq_decide, List.chain'_cons]
        exact (and_iff_right (not_lt.mp h)).symm

/-- A symbol record (canonical field layout) whose stats carry only
`occurrence_count`. -/
def mkSymbolOC (ident : String) (occs : List Val) (n : Int) : Val :=
  .vDict [("identifier", .vStr ident), ("occurrences", .vList occs),
          ("stats", .vDict [("occurrence_count", .vInt n)])]

/-- A symbol record (canonical field layout) whose stats carry only
`unique_line_count`. -/
def mkSymbolUL (ident : String) (occs : List Val) (u : Int) : Val :=
  .vDict [("identifier", .vStr ident), ("occurrences", .vList occs),
          ("stats", .vDict [("unique_line_count", .vInt u)])]

/-- Well-typedness of one occurrence value for the unique-line-pair
computation: a dict whose `line` is int-coercible whenever both `file_id`
and `line` are present (so the set comprehension cannot raise). -/
def wtOccB (o : Val) : Bool :=
  match o with
  | .vDict kvs =>
    match List.lookup "file_id" kvs, List.lookup "line" kvs with
    | some _, some lv => coercibleB lv
    | _, _ => true
  | _ => false

/-- The `(file_id, line)` pair of one occurrence, when it carries both
fields (file id as `str()`, line as `int()`). -/
def pairOf : Val → Option (String × Int)
  | .vDict kvs =>
    match List.lookup "file_id" kvs, List.lookup "line" kvs with
    | some fv, some lv => (pyInt lv).map fun l => (pyStr fv, l)
    | _, _ => none
  | _ => none

/-- Specification-side list of `(file_id, line)` pairs over the occurrences
that carry both fields. -/
def specPairs (occs : List Val) : List (String × Int) :=
  occs.filterMap pairOf

/-- Specification-side number of DISTINCT `(file_id, line)` pairs. -/
def specUniquePairs (occs : List Val) : Nat := (specPairs occs).dedup.length

theorem coercibleB_ok {v : Val} (h : coercibleB v = true) :
    ∃ n, pyIntE v = .ok n ∧ pyInt v = some n := by
  unfold coercibleB at h
  cases he : pyIntE v with
  | ok n => exact ⟨n, rfl, by simp [pyInt, he]⟩
  | error e => rw [he] at h; cases h

/-- Under per-occurrence well-typedness the set comprehension of the
unique-line check evaluates, to exactly the spec-side pair list. -/
theorem collectPairs_eq (occs : List Val) (h : occs.all wtOccB = true) :
    collectPairs occs = .ok (specPairs occs) := by
  induction occs with
  | nil => rfl
  | cons o rest ih =>
    simp only [List.all_cons, Bool.and_eq_true] at h
    obtain ⟨h1, h2⟩ := h
    have ihr := ih h2
    cases o with
    | vDict kvs =>
      have hsp :
          specPairs (Val.vDict kvs :: rest) =
            match pairOf (Val.vDict kvs) with
            | none => specPairs rest
            | some p => p :: specPairs rest := by
        simp only [specPairs, List.filterMap_cons]
        cases pairOf (Val.vDict kvs) <;> rfl
      cases hf : List.lookup "file_id" kvs with
      | none =>
        rw [hsp]
        simp [collectPairs, pyContains, hf, pairOf, ihr]
      | some fv =>
        cases hl : List.lookup "line" kvs with
        | none =>
          rw [hsp]
          simp [collectPairs, pyContains, hf, hl, pairOf, ihr]
        | some lv =>
          rw [wtOccB] at h1
          rw [hf, hl] at h1
          obtain ⟨n, hn, hn'⟩ := coercibleB_ok h1
          rw [hsp]
          simp [collectPairs, pyContains, pyGetOpt, pyGetD, hf, hl, hn, hn', ihr, pairOf]
    | vNull => simp [wtOccB] at h1
    | vBool b => simp [wtOccB] at h1
    | vInt n => simp [wtOccB] at h1
    | vStr s => simp [wtOccB] at h1
    | vList xs => simp [wtOccB] at h1

/-! ### Claim C1 -/

/-- Claim C1 (corrected).  For a symbol whose stats carry `occurrence_count`:
every occurrence whose `(file_id, line, col_start, col_end)` fields cannot
be strictly converted to `(str, int, int, int)` causes exactly one
`MalformedOccurrence` error for that entry (one list element per failing
occurrence, in order) and is excluded from the occurrence-ordering and
duplicate-detection checks, which run over the well-formed keys only, while
the remaining well-formed occurrences are still checked.  Contrary to the
claim as stated, malformed occurrences are NOT excluded from the stats
comparisons: `occurrence_count` is compared against the length of the full
occurrence list, malformed entries included. -/
theorem C1_malformed_occurrence_scope (ident : String) (occs : List Val) (n : Int) :
    checkSymbol (mkSymbolOC ident occs n) =
      .ok (((occs.filter fun o => !(occKey o).isOk).map
              fun o => Err.malformedOccurrence ident (pyRepr o))
        ++ (if is_sortedB OccKey.ltB (occs.filterMap fun o => (occKey o).toOption)
            then [] else [Err.occurrencesNotSorted ident])
        ++ (if (occs.filterMap fun o => (occKey o).toOption).length
              ≠ (occs.filterMap fun o => (occKey o).toOption).dedup.length
            then [Err.duplicateOccurrences ident] else [])
        ++ (if n ≠ (occs.length : Int)
            then [Err.occurrenceCountMismatch ident (toString n) occs.length]
            else [])) := by
  simp [checkSymbol, mkSymbolOC, pyGetD, List.lookup, pyStr, pyRepr, checkSymbolBody,
    buildKeys_eq, statsErrs, pyGetOpt, ocErr, ulErr, pyIntE]

/-- Claim C1 counterexample.  A symbol with one well-formed occurrence, one
malformed occurrence (`{}`) and stats `{occurrence_count: 1}`: were the
malformed occurrence excluded from the stats comparison, the remaining count
would be 1 and no `StatsMismatch` would be reported; the code however
reports `occurrence_count=1 != 2`, counting the malformed entry. -/
theorem C1_counterexample :
    checkSymbol (mkSymbolOC "sym"
      [Val.vDict [("file_id", Val.vStr "f"), ("line", Val.vInt 1),
                  ("col_start", Val.vInt 0), ("col_end", Val.vInt 0)],
       Val.vDict []] 1) =
      .ok [Err.malformedOccurrence "sym" "\x7b\x7d",
           Err.occurrenceCountMismatch "sym" "1" 2] := by rfl

/-! ### Claim C4 -/

/-- Occurrences on file `f1` at lines 1, 1, 2 and on file `f2` at line 1. -/
def c4occs : List Val :=
  [Val.vDict [("file_id", Val.vStr "f1"), ("line", Val.vInt 1),
              ("col_start", Val.vInt 0), ("col_end", Val.vInt 1)],
   Val.vDict [("file_id", Val.vStr "f1"), ("line", Val.vInt 1),
              ("col_start", Val.vInt 2), ("col_end", Val.vInt 3)],
   Val.vDict [("file_id", Val.vStr "f1"), ("line", Val.vInt 2),
              ("col_start", Val.vInt 0), ("col_end", Val.vInt 1)],
   Val.vDict [("file_id", Val.vStr "f2"), ("line", Val.vInt 1),
              ("col_start", Val.vInt 0), ("col_end", Val.vInt 1)]]

/-- Claim C4 (confirmed).  For a symbol whose stats carry `unique_line_count`
(and whose occurrences are well-typed enough for the pair computation not to
raise): a `StatsMismatch` on `unique_line_count` is reported if and only if
the stated value differs from the number of DISTINCT `(file_id, line)` pairs
over the occurrences that carry both fields — pairs, not mere line numbers,
so equal line numbers in different files are not collapsed. -/
theorem C4_unique_line_pairs (ident : String) (u : Int) (occs : List Val)
    (h : occs.all wtOccB = true) :
    checkSymbol (mkSymbolUL ident occs u) =
      .ok (((occs.filter fun o => !(occKey o).isOk).map
              fun o => Err.malformedOccurrence ident (pyRepr o))
        ++ (if is_sortedB OccKey.ltB (occs.filterMap fun o => (occKey o).toOption)
            then [] else [Err.occurrencesNotSorted ident])
        ++ (if (occs.filterMap fun o => (occKey o).toOption).length
              ≠ (occs.filterMap fun o => (occKey o).toOption).dedup.length
            then [Err.duplicateOccurrences ident] else [])
        ++ (if u ≠ (specUniquePairs occs : Int)
            then [Err.uniqueLineCountMismatch ident (toString u) (specUniquePairs occs)]
            else [])) := by
  simp [checkSymbol, mkSymbolUL, pyGetD, List.lookup, pyStr, pyRepr, checkSymbolBody,
    buildKeys_eq, statsErrs, pyGetOpt, ocErr, ulErr, pyIntE, collectPairs_eq occs h,
    specUniquePairs]

/-- Claim C4 witness.  On occurrences `f1:1, f1:1, f1:2, f2:1` with stated
`unique_line_count = 2`, the mismatch is reported with actual value 3 — the
three distinct pairs `(f1,1)`, `(f1,2)`, `(f2,1)` — not 2. -/
theorem C4_witness :
    checkSymbol (mkSymbolUL "sym" c4occs 2) =
      .ok [Err.uniqueLineCountMismatch "sym" "2" 3] := by
  rw [C4_unique_line_pairs "sym" 2 c4occs (by decide)]
  rfl

/-! ### Error-shape lemmas: the symbols-not-sorted error is emitted only by
the document-level ordering check, never by the metadata or per-symbol
checks. -/

theorem sns_not_mem_bytesCheck {fid kvs actual es}
    (h : bytesCheck fid kvs actual = .ok es) : Err.symbolsNotSorted ∉ es := by
  unfold bytesCheck at h
  split at h
  · cases h; simp
  · split at h
    · cases h
    · cases h
      split <;> simp

theorem sns_not_mem_linesCheck {fid kvs actual es}
    (h : linesCheck fid kvs actual = .ok es) : Err.symbolsNotSorted ∉ es := by
  unfold linesCheck at h
  split at h
  · cases h; simp
  · split at h
    · cases h
    · cases h
      split <;> simp

theorem sns_not_mem_shaCheck (fid : String) (kvs : List (String × Val)) (actual : String) :
    Err.symbolsNotSorted ∉ shaCheck fid kvs actual := by
  unfold shaCheck
  split
  · simp
  · split <;> simp

theorem sns_not_mem_checkFileEntry {fs : List (String × List Nat)} {f : Val} {es : List Err}
    (h : checkFileEntry fs f = .ok es) : Err.symbolsNotSorted ∉ es := by
  unfold checkFileEntry at h
  cases hs : pySubscript f "file_id" with
  | error e =>
    simp only [hs] at h
    cases h; simp
  | ok fidV =>
    simp only [hs] at h
    cases hl : List.lookup (pyStr fidV) fs with
    | none =>
      simp only [hl] at h
      cases h; simp
    | some data =>
      simp only [hl] at h
      cases f with
      | vDict kvs =>
        cases hb : bytesCheck (pyStr fidV) kvs (_file_meta data).1 with
        | error e => simp only [hb] at h; exact Except.noConfusion h
        | ok eb =>
          simp only [hb] at h
          cases hlc : linesCheck (pyStr fidV) kvs (_file_meta data).2.1 with
          | error e => simp only [hlc] at h; exact Except.noConfusion h
          | ok el =>
            simp only [hlc] at h
            cases h
            simp only [List.mem_append, not_or]
            exact ⟨⟨sns_not_mem_bytesCheck hb, sns_not_mem_linesCheck hlc⟩,
              sns_not_mem_shaCheck _ _ _⟩
      | vNull => cases h; simp
      | vBool b => cases h; simp
      | vInt n => cases h; simp
      | vStr s => cases h; simp
      | vList xs => cases h; simp

theorem sns_not_mem_filesFold {fs : List (String × List Nat)} {files : List Val} {es : List Err}
    (h : filesFold fs files = .ok es) : Err.symbolsNotSorted ∉ es := by
  induction files generalizing es with
  | nil => cases h; simp
  | cons f rest ih =>
    unfold filesFold at h
    cases h1 : checkFileEntry fs f with
    | error e => simp only [h1] at h; exact Except.noConfusion h
    | ok e1 =>
      simp only [h1] at h
      cases h2 : filesFold fs rest with
      | error e => simp only [h2] at h; exact Except.noConfusion h
      | ok e2 =>
        simp only [h2] at h
        cases h
        simp only [List.mem_append, not_or]
        exact ⟨sns_not_mem_checkFileEntry h1, ih h2⟩

theorem sns_not_mem_check_file_metadata {doc : Val} {fs : List (String × List Nat)}
    {es : List Err} (h : _check_file_metadata doc fs = .ok es) :
    Err.symbolsNotSorted ∉ es := by
  unfold _check_file_metadata at h
  cases hg : pyGetD doc "files" (.vList []) with
  | error e => simp only [hg] at h; exact Except.noConfusion h
  | ok v =>
    simp only [hg] at h
    cases v with
    | vList files => exact sns_not_mem_filesFold h
    | vNull => cases h; simp
    | vBool b => cases h; simp
    | vInt n => cases h; simp
    | vStr s => cases h; simp
    | vDict kvs => cases h; simp

theorem sns_not_mem_ocErr {ident : String} {occs : List Val} {oc : Val} {es : List Err}
    (h : ocErr ident occs oc = .ok es) : Err.symbolsNotSorted ∉ es := by
  unfold ocErr at h
  split at h
  · cases h; simp
  · cases hi : pyIntE _ with
    | error e => rw [hi] at h; cases h
    | ok n =>
      rw [hi] at h
      cases h
      split <;> simp

theorem sns_not_mem_ulErr {ident : String} {occs : List Val} {ul : Val} {es : List Err}
    (h : ulErr ident occs ul = .ok es) : Err.symbolsNotSorted ∉ es := by
  unfold ulErr at h
  split at h
  · cases h; simp
  · cases hp : collectPairs occs with
    | error e => rw [hp] at h; cases h
    | ok pairs =>
      rw [hp] at h
      cases hi : pyIntE _ with
      | error e => rw [hi] at h; cases h
      | ok u =>
        rw [hi] at h
        cases h
        split <;> simp

theorem sns_not_mem_statsErrs {ident : String} {occs : List Val} {s : Val} {es : List Err}
    (h : statsErrs ident occs s = .ok es) : Err.symbolsNotSorted ∉ es := by
  unfold statsErrs at h
  cases hg : pyGetOpt s "stats" with
  | error e => simp only [hg] at h; exact Except.noConfusion h
  | ok v =>
    simp only [hg] at h
    cases v with
    | vDict kvs =>
      cases h3 : ocErr ident occs ((List.lookup "occurrence_count" kvs).getD .vNull) with
      | error e => simp only [h3] at h; exact Except.noConfusion h
      | ok e3 =>
        simp only [h3] at h
        cases h4 : ulErr ident occs ((List.lookup "unique_line_count" kvs).getD .vNull) with
        | error e => simp only [h4] at h; exact Except.noConfusion h
        | ok e4 =>
          simp only [h4] at h
          cases h
          simp only [List.mem_append, not_or]
          exact ⟨sns_not_mem_ocErr h3, sns_not_mem_ulErr h4⟩
    | vNull => cases h; simp
    | vBool b => cases h; simp
    | vInt n => cases h; simp
    | vStr str => cases h; simp
    | vList xs => cases h; simp

theorem sns_not_mem_checkSymbolBody {ident : String} {occs : List Val} {s : Val}
    {es : List Err} (h : checkSymbolBody ident occs s = .ok es) :
    Err.symbolsNotSorted ∉ es := by
  unfold checkSymbolBody at h
  cases h34 : statsErrs ident occs s with
  | error e => simp only [h34] at h; exact Except.noConfusion h
  | ok e34 =>
    simp only [h34] at h
    cases h
    simp only [List.mem_append, not_or]
    refine ⟨⟨⟨?_, by split <;> simp⟩, by split <;> simp⟩, sns_not_mem_statsErrs h34⟩
    rw [buildKeys_eq]
    simp

theorem sns_not_mem_checkSymbol {s : Val} {es : List Err}
    (h : checkSymbol s = .ok es) : Err.symbolsNotSorted ∉ es := by
  unfold checkSymbol at h
  cases hg : pyGetD s "identifier" (.vStr "<missing>") with
  | error e => simp only [hg] at h; exact Except.noConfusion h
  | ok identV =>
    simp only [hg] at h
    cases ho : pyGetD s "occurrences" (.vList []) with
    | error e => simp only [ho] at h; exact Except.noConfusion h
    | ok v =>
      simp only [ho] at h
      cases v with
      | vList occs => exact sns_not_mem_checkSymbolBody h
      | vNull => cases h; simp
      | vBool b => cases h; simp
      | vInt n => cases h; simp
      | vStr str => cases h; simp
      | vDict kvs => cases h; simp

theorem sns_not_mem_checkAllSymbols {symbols : List Val} {es : List Err}
    (h : checkAllSymbols symbols = .ok es) : Err.symbolsNotSorted ∉ es := by
  induction symbols generalizing es with
  | nil => cases h; simp
  | cons s rest ih =>
    unfold checkAllSymbols at h
    cases h1 : checkSymbol s with
    | error e => simp only [h1] at h; exact Except.noConfusion h
    | ok e1 =>
      simp only [h1] at h
      cases h2 : checkAllSymbols rest with
      | error e => simp only [h2] at h; exact Except.noConfusion h
      | ok e2 =>
        simp only [h2] at h
        cases h
        simp only [List.mem_append, not_or]
        exact ⟨sns_not_mem_checkSymbol h1, ih h2⟩

/-! ### Claim C7 -/

/-- Claim C7 (confirmed).  (i) The ordering primitive `_is_sorted` returns true
on the empty and singleton sequences for ANY comparison, even a raising one;
(ii) for every sequence over a linear order it returns true iff each element
is ≥ its predecessor (the sequence is non-decreasing); (iii) for every
SymbolIndex document whose identifiers are strings, the number of
symbols-not-sorted errors in the report is exactly 1 when the identifier
sequence is not non-decreasing (lexicographically, case-sensitively) and 0
when it is — in particular one violation regardless of how many adjacent
pairs are out of order. -/
theorem C7_ordering_primitive_single_violation :
    (∀ (α : Type) (lt : α → α → Except PyErr Bool), is_sortedE lt [] = .ok true)
    ∧ (∀ (α : Type) (lt : α → α → Except PyErr Bool) (x : α), is_sortedE lt [x] = .ok true)
    ∧ (∀ (α : Type) (inst : LinearOrder α) (l : List α),
        (is_sortedB (fun a b => decide (a < b)) l = true ↔ List.Chain' (· ≤ ·) l))
    ∧ (∀ (fs : List (String × List Nat)) (b : Bool) (kvs : List (String × Val))
        (symbols : List Val) (strs : List String) (errs : List Err),
        List.lookup "symbols" kvs = some (.vList symbols) →
        identsOf symbols = .ok (strs.map Val.vStr) →
        check_symbol_index_doc (.vDict kvs) fs b = .ok errs →
        errs.count Err.symbolsNotSorted
          = if List.Chain' (· ≤ ·) strs then 0 else 1) := by
  refine ⟨fun α lt => rfl, fun α lt x => rfl, ?_, ?_⟩
  · intro α inst l
    rw [is_sortedB_eq_chain]
    exact Iff.of_eq (decide_eq_true_eq)
  · intro fs b kvs symbols strs errs hsym hid hchk
    unfold check_symbol_index_doc at hchk
    cases hm : (if b then _check_file_metadata (.vDict kvs) fs else .ok []) with
    | error e => rw [hm] at hchk; cases hchk
    | ok metaErrs =>
      rw [hm] at hchk
      have hg : pyGetD (.vDict kvs) "symbols" (.vList []) = .ok (.vList symbols) := by
        simp [pyGetD, hsym]
      simp only [hg, hid, is_sortedE_strings] at hchk
      cases hca : checkAllSymbols symbols with
      | error e => simp only [hca] at hchk; exact Except.noConfusion hchk
      | ok symErrs =>
        simp only [hca] at hchk
        cases hchk
        have h1 : metaErrs.count Err.symbolsNotSorted = 0 := by
          cases b with
          | false =>
            simp only [if_neg Bool.false_ne_true] at hm
            cases hm; rfl
          | true =>
            simp only [if_pos rfl] at hm
            exact List.count_eq_zero.mpr (sns_not_mem_check_file_metadata hm)
        have h2 : symErrs.count Err.symbolsNotSorted = 0 :=
          List.count_eq_zero.mpr (sns_not_mem_checkAllSymbols hca)
        rw [List.count_append, List.count_append, h1, h2, is_sortedB_str]
        split <;> rename_i hsp
        · rw [if_pos (of_decide_eq_true hsp)]
          simp
        · rw [if_neg (fun hch => hsp (decide_eq_true hch))]
          simp

/-- Claim C7 witness.  A document with identifiers `c, b, a` — two adjacent
inversions — yields exactly one symbols-not-sorted error, and the count
equals the value the claim theorem predicts. -/
theorem C7_witness :
    check_symbol_index_doc
        (.vDict [("symbols", .vList
          [Val.vDict [("identifier", Val.vStr "c")],
           Val.vDict [("identifier", Val.vStr "b")],
           Val.vDict [("identifier", Val.vStr "a")]])]) [] false
      = .ok [Err.symbolsNotSorted]
    ∧ ([Err.symbolsNotSorted].count Err.symbolsNotSorted
        = if List.Chain' (· ≤ ·) ["c", "b", "a"] then 0 else 1) := by
  constructor
  · rfl
  · exact C7_ordering_primitive_single_violation.2.2.2 [] false
      [("symbols", .vList
        [Val.vDict [("identifier", Val.vStr "c")],
         Val.vDict [("identifier", Val.vStr "b")],
         Val.vDict [("identifier", Val.vStr "a")]])]
      [Val.vDict [("identifier", Val.vStr "c")],
       Val.vDict [("identifier", Val.vStr "b")],
       Val.vDict [("identifier", Val.vStr "a")]]
      ["c", "b", "a"] [Err.symbolsNotSorted] rfl rfl rfl

/-! ### Claim C5 -/

/-- Specification-side re-tagging: entry `i`'s error list is re-tagged with
position `i`, and all lists are concatenated in order. -/
def tagJoin (i : Nat) : List (List Err) → List Err
  | [] => []
  | es :: rest => es.map (Err.tagged i) ++ tagJoin (i + 1) rest

/-- The enumerate loop of `check_project_index` equals the spec-side
re-tag-and-concatenate, given each (dict) entry's own validation result. -/
theorem checkIndexes_eq (fs : List (String × List Nat)) (b : Bool)
    (entries : List Val) (subs : List (List Err))
    (h : List.Forall₂ (fun idx es => idx.isDict = true
          ∧ check_symbol_index_doc idx fs b = .ok es) entries subs) :
    ∀ i, checkIndexes fs b i entries = .ok (tagJoin i subs) := by
  induction h with
  | nil => intro i; rfl
  | @cons a es as ess h1 _ ih =>
    intro i
    obtain ⟨hd, hc⟩ := h1
    cases a with
    | vDict kvs =>
      unfold checkIndexes checkOneIndex
      simp only [hc, ih (i + 1), tagJoin]
    | vNull => simp [Val.isDict] at hd
    | vBool bb => simp [Val.isDict] at hd
    | vInt n => simp [Val.isDict] at hd
    | vStr s => simp [Val.isDict] at hd
    | vList xs => simp [Val.isDict] at hd

/-- Claim C5 (confirmed).  For a ProjectIndex document whose `indexes` entries
are dicts: the `profile_id` sequence is checked for non-decreasing order —
its failure contributes exactly one indexes-ordering error at the head of
the report — and each entry is independently validated as a SymbolIndex,
with every resulting error re-tagged with that entry's position; the reports
of the entries are concatenated in order, so sibling sub-indexes are
validated unaffected by each other. -/
theorem C5_project_recursive_validation (fs : List (String × List Nat)) (b : Bool)
    (entries : List Val) (subs : List (List Err)) (pids : List Val) (srt : Bool)
    (hf : List.Forall₂ (fun idx es => idx.isDict = true
          ∧ check_symbol_index_doc idx fs b = .ok es) entries subs)
    (hp : profileIdsOf entries = .ok pids)
    (hs : is_sortedE pyLt pids = .ok srt) :
    check_project_index
        (.vDict [("schema_version", .vStr "2.3"), ("indexes", .vList entries)]) fs b
      = .ok ((if srt then [] else [Err.indexesNotSorted]) ++ tagJoin 0 subs) := by
  unfold check_project_index
  have hidx : pyGetD
      (.vDict [("schema_version", .vStr "2.3"), ("indexes", .vList entries)])
      "indexes" (.vList []) = .ok (.vList entries) := by
    simp [pyGetD, List.lookup]
  simp only [hidx, hp, hs, checkIndexes_eq fs b entries subs hf 0]

/-- A sorted, well-formed `go` sub-index. -/
def goIdx : Val :=
  .vDict [("profile_id", .vStr "go"),
          ("symbols", .vList [Val.vDict [("identifier", Val.vStr "a")]])]

/-- A `python` sub-index whose symbols are NOT sorted by identifier. -/
def pyUnsortedIdx : Val :=
  .vDict [("profile_id", .vStr "python"),
          ("symbols", .vList [Val.vDict [("identifier", Val.vStr "b")],
                              Val.vDict [("identifier", Val.vStr "a")]])]

/-- Claim C5 witness.  Indexes `["go", "python"]` are correctly sorted but the
`python` sub-index has unsorted symbols: the report is exactly one
ordering violation tagged with position 1, and the `go` sibling contributes
nothing. -/
theorem C5_witness :
    check_project_index
        (.vDict [("schema_version", .vStr "2.3"),
                 ("indexes", .vList [goIdx, pyUnsortedIdx])]) [] false
      = .ok [Err.tagged 1 Err.symbolsNotSorted] := by
  have h := C5_project_recursive_validation [] false [goIdx, pyUnsortedIdx]
    [[], [Err.symbolsNotSorted]] [Val.vStr "go", Val.vStr "python"] true
    (List.Forall₂.cons ⟨rfl, rfl⟩ (List.Forall₂.cons ⟨rfl, rfl⟩ List.Forall₂.nil))
    rfl rfl
  simpa using h

/-! ### Claim C6 -/

/-- Claim C6 (corrected).  The dispatch in `main` recognizes ONLY the `'2.3'`
project-wrapper discriminant; every other document — including one whose
version is recognized as nothing at all — is simply validated as a plain
SymbolIndex.  No schema-version-unrecognized error exists anywhere in the
checker: a dict with an unrecognized version and no `files`/`symbols` fields
is fully processed and yields ZERO errors rather than being skipped with one
error. -/
theorem C6_unrecognized_validated_as_symbol_index (kvs : List (String × Val))
    (fs : List (String × List Nat)) (b : Bool)
    (hv : isProjectWrapper (.vDict kvs) = false)
    (hfiles : List.lookup "files" kvs = none)
    (hsyms : List.lookup "symbols" kvs = none) :
    processDoc (.vDict kvs) fs b = .ok [] := by
  have h1 : _check_file_metadata (.vDict kvs) fs = .ok [] := by
    unfold _check_file_metadata
    simp [pyGetD, hfiles, filesFold]
  have h2 : pyGetD (.vDict kvs) "symbols" (.vList []) = .ok (.vList []) := by
    simp [pyGetD, hsyms]
  unfold processDoc
  rw [hv]
  simp only [Bool.false_eq_true, if_false]
  unfold check_symbol_index_doc
  cases b <;>
    simp only [if_true, if_false, Bool.false_eq_true, h1, h2, identsOf, is_sortedE,
      checkAllSymbols] <;> rfl

/-- Claim C6 counterexample.  The document `{"schema_version": "9.9"}` is not
recognized as a project wrapper, nor does anything mark it unrecognized: the
checker reports ZERO errors for it — not exactly one
schema-version-unrecognized error as claimed (no such error kind is ever
produced by the code). -/
theorem C6_counterexample :
    processDoc (.vDict [("schema_version", .vStr "9.9")]) [] true = .ok []
    ∧ ([] : List Err).length ≠ 1 := ⟨rfl, by simp⟩

/-- Claim C6 witness for the amended claim, at a concrete unrecognized-version
document. -/
theorem C6_witness :
    processDoc (.vDict [("schema_version", .vStr "9.9")]) [] false = .ok [] :=
  C6_unrecognized_validated_as_symbol_index
    [("schema_version", .vStr "9.9")] [] false rfl rfl rfl

/-! ### Claim C8 -/

/-- Claim C8 (confirmed).  The cross-checker's line count equals the number of
newline characters in the replacement-decoded text plus one if the text is
nonempty and does not end in a newline; this function coincides with
regen_meta's `count_lines` on every byte content; the empty file has 0
lines, `"a\n b"`-style content without trailing newline has 2, with trailing
newline also 2; and undecodable bytes are replaced (never raised). -/
theorem C8_line_count_rule (data : List Nat) :
    (_file_meta data).2.1 = count_lines (decodeReplace data)
    ∧ (_file_meta data).2.1 =
        (decodeReplace data).count '\n'
          + (if 0 < (decodeReplace data).length ∧ ¬ endsWithNL (decodeReplace data) = true
             then 1 else 0)
    ∧ (_file_meta ([] : List Nat)).2.1 = 0
    ∧ (_file_meta [97, 10, 98]).2.1 = 2
    ∧ (_file_meta [97, 10, 98, 10]).2.1 = 2
    ∧ decodeReplace [255, 10] = [replChar, '\n'] := by
  refine ⟨?_, ?_, rfl, rfl, rfl, rfl⟩
  · show (if 0 < (decodeReplace data).length && !endsWithNL (decodeReplace data)
          then (decodeReplace data).count '\n' + 1
          else (decodeReplace data).count '\n')
        = count_lines (decodeReplace data)
    generalize decodeReplace data = text
    unfold count_lines
    cases text with
    | nil => simp
    | cons c cs =>
      have hne : c :: cs ≠ [] := by simp
      simp only [if_neg hne, List.length_cons]
      cases he : endsWithNL (c :: cs) <;> simp [he]
  · show (if 0 < (decodeReplace data).length && !endsWithNL (decodeReplace data)
          then (decodeReplace data).count '\n' + 1
          else (decodeReplace data).count '\n')
        = (decodeReplace data).count '\n'
          + (if 0 < (decodeReplace data).length ∧ ¬ endsWithNL (decodeReplace data) = true
             then 1 else 0)
    generalize decodeReplace data = text
    by_cases h : 0 < text.length ∧ ¬ endsWithNL text = true
    · rw [if_pos h]
      have hb : (0 < text.length && !endsWithNL text) = true := by
        simp [h.1, h.2]
      rw [hb]
      simp
    · rw [if_neg h]
      have hb : (0 < text.length && !endsWithNL text) = false := by
        rcases not_and_or.mp h with h1 | h2
        · simp [Nat.not_lt.mp (fun hl => h1 hl)]
        · have : endsWithNL text = true := by
            cases hv : endsWithNL text
            · exact absurd (by simp [hv]) h2
            · rfl
          simp [this]
      rw [hb]
      simp

/-! ### Claim C9 -/

/-- Claim C9 (corrected).  For a `files[]` record: if the referenced input
file is absent, the result is exactly one missing-input-file error and no
further checks run for that entry; if it is present, only the fields
actually present on the record are compared — an absent field produces no
check — and each mismatching field yields one separate error.  The bytes and
lines errors name the field, the stated (expected) value and the actual
value; the sha256 error, contrary to the claim, names only the field and
carries neither digest. -/
theorem C9_partial_field_checks (kvs : List (String × Val)) (fidV : Val)
    (fs : List (String × List Nat))
    (hfid : List.lookup "file_id" kvs = some fidV) :
    (List.lookup (pyStr fidV) fs = none →
      checkFileEntry fs (.vDict kvs) = .ok [Err.inputFileMissing (pyStr fidV)])
    ∧ (∀ data, List.lookup (pyStr fidV) fs = some data →
        (∀ v, List.lookup "bytes" kvs = some v → coercibleB v = true) →
        (∀ v, List.lookup "lines" kvs = some v → coercibleB v = true) →
        checkFileEntry fs (.vDict kvs) = .ok (
          (match List.lookup "bytes" kvs with
           | none => []
           | some v =>
             if pyInt v ≠ some ((_file_meta data).1 : Int)
             then [Err.bytesMismatch (pyStr fidV) (pyStr v) (_file_meta data).1]
             else [])
          ++ (match List.lookup "lines" kvs with
              | none => []
              | some v =>
                if pyInt v ≠ some ((_file_meta data).2.1 : Int)
                then [Err.linesMismatch (pyStr fidV) (pyStr v) (_file_meta data).2.1]
                else [])
          ++ (match List.lookup "sha256" kvs with
              | none => []
              | some v =>
                if pyStr v ≠ (_file_meta data).2.2
                then [Err.shaMismatch (pyStr fidV)]
                else []))) := by
  have hsub : pySubscript (.vDict kvs) "file_id" = .ok fidV := by
    simp [pySubscript, hfid]
  constructor
  · intro hmiss
    unfold checkFileEntry
    simp only [hsub, hmiss]
  · intro data hdata hbc hlc
    unfold checkFileEntry
    simp only [hsub, hdata]
    have hb : bytesCheck (pyStr fidV) kvs (_file_meta data).1 = .ok
        (match List.lookup "bytes" kvs with
         | none => []
         | some v =>
           if pyInt v ≠ some ((_file_meta data).1 : Int)
           then [Err.bytesMismatch (pyStr fidV) (pyStr v) (_file_meta data).1]
           else []) := by
      unfold bytesCheck
      cases hv : List.lookup "bytes" kvs with
      | none => rfl
      | some v =>
        obtain ⟨n, hn, hn'⟩ := coercibleB_ok (hbc v hv)
        simp [hn, hn']
    have hl : linesCheck (pyStr fidV) kvs (_file_meta data).2.1 = .ok
        (match List.lookup "lines" kvs with
         | none => []
         | some v =>
           if pyInt v ≠ some ((_file_meta data).2.1 : Int)
           then [Err.linesMismatch (pyStr fidV) (pyStr v) (_file_meta data).2.1]
           else []) := by
      unfold linesCheck
      cases hv : List.lookup "lines" kvs with
      | none => rfl
      | some v =>
        obtain ⟨n, hn, hn'⟩ := coercibleB_ok (hlc v hv)
        simp [hn, hn']
    simp only [hb, hl]
    unfold shaCheck
    rfl

/-- Claim C9 counterexample.  Two records stating DIFFERENT expected sha256
digests over the same (empty) input file produce the IDENTICAL error value:
the sha256 mismatch error names only the field, not the expected or actual
digest, contradicting the claim that each FileMetadataMismatch names the
field, the expected value and the actual value. -/
theorem C9_counterexample :
    checkFileEntry [("a.txt", [])]
        (.vDict [("file_id", .vStr "a.txt"), ("sha256", .vStr "00")])
      = checkFileEntry [("a.txt", [])]
        (.vDict [("file_id", .vStr "a.txt"), ("sha256", .vStr "11")])
    ∧ checkFileEntry [("a.txt", [])]
        (.vDict [("file_id", .vStr "a.txt"), ("sha256", .vStr "00")])
      = .ok [Err.shaMismatch "a.txt"]
    ∧ ("00" : String) ≠ "11" := by
  refine ⟨?_, ?_, by simp⟩
  · rfl
  · rfl

/-- Claim C9 witness.  A record `{file_id: "a.txt", bytes: 3}` over a 2-byte
file: the bytes mismatch is reported naming field, expected 3 and actual 2,
while the absent `lines` and `sha256` fields produce no checks at all. -/
theorem C9_witness :
    checkFileEntry [("a.txt", [97, 98])]
        (.vDict [("file_id", .vStr "a.txt"), ("bytes", .vInt 3)])
      = .ok [Err.bytesMismatch "a.txt" "3" 2] := by
  have h := (C9_partial_field_checks
    [("file_id", .vStr "a.txt"), ("bytes", .vInt 3)] (.vStr "a.txt")
    [("a.txt", [97, 98])] rfl).2 [97, 98] rfl
    (by intro v hv; cases hv; rfl) (by intro v hv; cases hv)
  rw [h]
  rfl

/-! ### Claim C3 -/

/-- A single `*` segment matches any path segment. -/
theorem fnSegGo_star (s : List Char) :
    ∀ fuel, s.length + 2 ≤ fuel → fnSegGo fuel ['*'] s = true := by
  induction s with
  | nil =>
    intro fuel hf
    match fuel, hf with
    | k + 2, _ => rfl
  | cons c t ih =>
    intro fuel hf
    match fuel, hf with
    | k + 1, hf =>
      have hk : t.length + 2 ≤ k := by
        simp only [List.length_cons] at hf
        omega
      show (fnSegGo k [] (c :: t) || fnSegGo k ['*'] t) = true
      rw [ih k hk]
      simp

/-- Lemma: `fnSeg ['*'] s = true` for every segment `s`. -/
theorem fnSeg_star (s : List Char) : fnSeg ['*'] s = true := by
  unfold fnSeg
  exact fnSegGo_star s _ (by simp [List.length]; omega)

/-- The `**/​*` pattern (segments `[**, *]`) matches every nonempty segment
list. -/
theorem segMatchGo_star_star (segs : List (List Char)) (hne : segs ≠ []) :
    ∀ fuel, segs.length + 3 ≤ fuel → segMatchGo fuel [['*', '*'], ['*']] segs = true := by
  induction segs with
  | nil => exact absurd rfl hne
  | cons s rest ih =>
    intro fuel hf
    match fuel, hf with
    | k + 1, hf =>
      show (if (['*', '*'] : List Char) = ['*', '*'] then _ else _) = true
      rw [if_pos rfl]
      cases rest with
      | nil =>
        have hk : 3 ≤ k := by simp only [List.length_cons, List.length_nil] at hf; omega
        match k, hk with
        | j + 1, _ =>
          have : segMatchGo (j + 1) [['*']] [s] = true := by
            show (if (['*'] : List Char) = ['*', '*'] then _ else _) = true
            rw [if_neg (by simp)]
            show (fnSeg ['*'] s && segMatchGo j [] []) = true
            rw [fnSeg_star]
            have hj : 1 ≤ j := by omega
            match j, hj with
            | i + 1, _ => rfl
          rw [this]
          simp
      | cons s2 rest2 =>
        have hk : (s2 :: rest2).length + 3 ≤ k := by
          simp only [List.length_cons] at hf ⊢
          omega
        show (segMatchGo k [['*']] (s :: s2 :: rest2)
            || segMatchGo k [['*', '*'], ['*']] (s2 :: rest2)) = true
        rw [ih (by simp) k hk]
        simp

/-- Path segmentation never yields an empty segment list. -/
theorem splitSegs_ne_nil (cs : List Char) : splitSegs cs ≠ [] := by
  cases cs with
  | nil => simp [splitSegs]
  | cons c rest =>
    unfold splitSegs
    split
    · simp
    · split <;> simp

/-- The `**/​*` glob matches every path. -/
theorem match_glob_star_star (rel : String) : _match_glob "**/*" rel = true := by
  unfold _match_glob
  have h1 : splitSegs ("**/*".toList) = [['*', '*'], ['*']] := rfl
  rw [h1]
  unfold segMatch
  apply segMatchGo_star_star _ (splitSegs_ne_nil _)
  simp only [List.length_cons, List.length_nil]
  omega

/-- The example registry of the claim: rule `*.py → py` before rule
`**/​* → fallback`, both aliases defined. -/
def exReg : Registry :=
  ⟨[("py", "profiles/py.json"), ("fallback", "profiles/fallback.json")],
   [⟨"*.py", "py"⟩, ⟨"**/*", "fallback"⟩]⟩

/-- The same registry with the two rules reordered. -/
def exRegRev : Registry :=
  ⟨[("py", "profiles/py.json"), ("fallback", "profiles/fallback.json")],
   [⟨"**/*", "fallback"⟩, ⟨"*.py", "py"⟩]⟩

/-- Claim C3 (corrected).  Resolution walks the rules in declared order and
returns the profile alias and definition path of the FIRST rule whose glob
matches the path (gitignore-style `**`-across-segments semantics); with the
example rules, `x.py` resolves to `py`, every path the `*.py` rule does NOT
match resolves to `fallback` (the `**/​*` rule matches every path), and
reordering the rules makes `x.py` resolve to `fallback` instead.  Contrary
to the claim as stated, it is not true that every path other than `x.py`
resolves to `fallback`: any other path matching `*.py` also resolves to
`py`. -/
theorem C3_first_match_resolution :
    (∀ (profiles : List (String × String)) (rules₁ rules₂ : List Rule) (r : Rule)
       (rel : String) (p : String),
       (∀ r' ∈ rules₁, _match_glob r'.glob rel = false) →
       _match_glob r.glob rel = true →
       List.lookup r.profile profiles = some p →
       resolve_profile ⟨profiles, rules₁ ++ r :: rules₂⟩ rel = .ok (r.profile, p))
    ∧ resolve_profile exReg "x.py" = .ok ("py", "profiles/py.json")
    ∧ (∀ rel : String, _match_glob "*.py" rel = false →
        resolve_profile exReg rel = .ok ("fallback", "profiles/fallback.json"))
    ∧ resolve_profile exRegRev "x.py" = .ok ("fallback", "profiles/fallback.json") := by
  refine ⟨?_, rfl, ?_, ?_⟩
  · intro profiles rules₁ rules₂ r rel p hmiss hmatch hlook
    unfold resolve_profile
    induction rules₁ with
    | nil =>
      show resolveRules profiles rel (r :: rules₂) = _
      unfold resolveRules
      rw [hmatch]
      simp [hlook]
    | cons r' rest ih =>
      show resolveRules profiles rel (r' :: (rest ++ r :: rules₂)) = _
      unfold resolveRules
      rw [hmiss r' (by simp)]
      simp only [Bool.false_eq_true, if_false]
      exact ih (fun r'' hr'' => hmiss r'' (by simp [hr'']))
  · intro rel hnm
    unfold resolve_profile exReg resolveRules
    rw [hnm]
    simp only [Bool.false_eq_true, if_false]
    unfold resolveRules
    rw [match_glob_star_star rel]
    simp [List.lookup]
  · rw [show resolve_profile exRegRev "x.py"
        = resolveRules exRegRev.profiles "x.py" exRegRev.rules from rfl]
    unfold exRegRev resolveRules
    rw [match_glob_star_star "x.py"]
    simp [List.lookup]

/-- Claim C3 counterexample.  `y.py` is a path other than `x.py`, yet it
resolves to `py`, not to `fallback` — refuting "every other path resolves to
fallback". -/
theorem C3_counterexample :
    resolve_profile exReg "y.py" = .ok ("py", "profiles/py.json")
    ∧ ("y.py" : String) ≠ "x.py"
    ∧ (("py", "profiles/py.json") : String × String)
        ≠ ("fallback", "profiles/fallback.json") := by
  refine ⟨rfl, by simp, by simp⟩

/-- Claim C3 witness.  A path not matched by `*.py` resolves to `fallback`
through the second rule. -/
theorem C3_witness :
    _match_glob "*.py" "docs/readme.md" = false
    ∧ resolve_profile exReg "docs/readme.md" = .ok ("fallback", "profiles/fallback.json") :=
  ⟨rfl, C3_first_match_resolution.2.2.1 "docs/readme.md" rfl⟩

/-! ### Claim C10 -/

/-- Claim C10 (corrected).  For a run that discovers at least one document and
whose per-document checks complete without an uncaught exception: the
process exits 0 if zero errors were found across all documents — printing
the OK line carrying the count of documents checked — and exits 1 otherwise.
(Contrary to the claim as stated, a run over an existing corpus root that
discovers NO documents exits 1 even though zero errors were found; a missing
corpus root likewise exits 1.) -/
theorem C10_exit_code (cases : List DocCase) (allErrs : List Err)
    (hne : cases ≠ [])
    (hall : collectAllErrs cases = .ok allErrs) :
    mainModel true cases =
      .ok ((if allErrs.isEmpty then 0 else 1),
           (if allErrs.isEmpty then some (okLine cases.length) else none))
    ∧ mainModel false cases = .ok (1, none) := by
  constructor
  · unfold mainModel
    rw [if_neg (by simp)]
    rw [if_neg (by simp [hne])]
    rw [hall]
    cases h : allErrs.isEmpty <;> simp [h]
  · rfl

/-- Claim C10 counterexample.  A run over an existing corpus root that
discovers no documents finds zero errors across all (zero) documents, yet
exits with code 1 and prints no OK line. -/
theorem C10_counterexample :
    collectAllErrs [] = .ok [] ∧ mainModel true [] = .ok (1, none) := ⟨rfl, rfl⟩

/-- Claim C10 witness.  One error-free document: exit code 0 and the OK line
reporting 1 file checked. -/
theorem C10_witness :
    mainModel true [⟨.ok (.vDict []), [], false⟩] = .ok (0, some (okLine 1)) := by
  have h := C10_exit_code [⟨.ok (.vDict []), [], false⟩] [] (by simp) rfl
  simpa using h.1

/-! ### Claim C2: well-typedness and exception-freedom -/

/-- Is a value `None`, or else safely `int()`-coercible?  (The shape a
stats value must have to survive the `x is not None → int(x)` pattern.) -/
def wtStatsVal : Val → Bool
  | .vNull => true
  | v => coercibleB v

/-- Well-typedness of one `files[]` record: `bytes`/`lines` int-coercible
when present.  (Non-dict entries and missing `file_id` only ever produce a
caught exception, so they are unconstrained.) -/
def wtEntryB : Val → Bool
  | .vDict kvs =>
    (match List.lookup "bytes" kvs with
     | none => true
     | some v => coercibleB v) &&
    (match List.lookup "lines" kvs with
     | none => true
     | some v => coercibleB v)
  | _ => true

/-- Well-typedness of one `symbols[]` record: a dict whose identifier (when
present) is a string, whose occurrence entries are well-typed dicts when
`occurrences` is a list, and whose stats values are None-or-coercible when
`stats` is a dict. -/
def wtSymbolB : Val → Bool
  | .vDict kvs =>
    (match List.lookup "identifier" kvs with
     | none => true
     | some (.vStr _) => true
     | some _ => false) &&
    (match List.lookup "occurrences" kvs with
     | none => true
     | some (.vList occs) => occs.all wtOccB
     | some _ => true) &&
    (match List.lookup "stats" kvs with
     | some (.vDict skvs) =>
       wtStatsVal ((List.lookup "occurrence_count" skvs).getD .vNull) &&
       wtStatsVal ((List.lookup "unique_line_count" skvs).getD .vNull)
     | _ => true)
  | _ => false

/-- Well-typedness of a SymbolIndex document. -/
def wtDocB : Val → Bool
  | .vDict kvs =>
    (match List.lookup "files" kvs with
     | some (.vList files) => files.all wtEntryB
     | _ => true) &&
    (match List.lookup "symbols" kvs with
     | some (.vList symbols) => symbols.all wtSymbolB
     | _ => true)
  | _ => false

/-- Well-typedness of one ProjectIndex entry. -/
def wtIndexEntryB (idx : Val) : Bool :=
  (match idx with
   | .vDict ikvs =>
     (match List.lookup "profile_id" ikvs with
      | none => true
      | some (.vStr _) => true
      | some _ => false)
   | _ => false) && wtDocB idx

/-- Well-typedness of a ProjectIndex document. -/
def wtProjectB : Val → Bool
  | .vDict kvs =>
    (match List.lookup "indexes" kvs with
     | some (.vList idxs) => idxs.all wtIndexEntryB
     | _ => true)
  | _ => false

/-- Well-typedness of any discovered document, per its dispatch branch. -/
def wtTop (doc : Val) : Bool :=
  if isProjectWrapper doc then wtProjectB doc else wtDocB doc

theorem bytesCheck_total (fid : String) (kvs : List (String × Val)) (actual : Nat)
    (h : (match List.lookup "bytes" kvs with
          | none => true
          | some v => coercibleB v) = true) :
    ∃ es, bytesCheck fid kvs actual = .ok es := by
  unfold bytesCheck
  cases hv : List.lookup "bytes" kvs with
  | none => exact ⟨[], rfl⟩
  | some v =>
    rw [hv] at h
    obtain ⟨n, hn, _⟩ := coercibleB_ok h
    simp only [hn]
    exact ⟨_, rfl⟩

theorem linesCheck_total (fid : String) (kvs : List (String × Val)) (actual : Nat)
    (h : (match List.lookup "lines" kvs with
          | none => true
          | some v => coercibleB v) = true) :
    ∃ es, linesCheck fid kvs actual = .ok es := by
  unfold linesCheck
  cases hv : List.lookup "lines" kvs with
  | none => exact ⟨[], rfl⟩
  | some v =>
    rw [hv] at h
    obtain ⟨n, hn, _⟩ := coercibleB_ok h
    simp only [hn]
    exact ⟨_, rfl⟩

theorem checkFileEntry_total (fs : List (String × List Nat)) (f : Val)
    (h : wtEntryB f = true) : ∃ es, checkFileEntry fs f = .ok es := by
  cases f with
  | vDict kvs =>
    unfold checkFileEntry
    cases hfid : List.lookup "file_id" kvs with
    | none =>
      have hsub : pySubscript (.vDict kvs) "file_id" = .error .keyError := by
        simp [pySubscript, hfid]
      simp only [hsub]
      exact ⟨_, rfl⟩
    | some fidV =>
      have hsub : pySubscript (.vDict kvs) "file_id" = .ok fidV := by
        simp [pySubscript, hfid]
      simp only [hsub]
      cases hdata : List.lookup (pyStr fidV) fs with
      | none => exact ⟨_, rfl⟩
      | some data =>
        unfold wtEntryB at h
        rw [Bool.and_eq_true] at h
        obtain ⟨eb, hb⟩ := bytesCheck_total (pyStr fidV) kvs (_file_meta data).1 h.1
        obtain ⟨el, hl⟩ := linesCheck_total (pyStr fidV) kvs (_file_meta data).2.1 h.2
        simp only [hb, hl]
        exact ⟨_, rfl⟩
  | vNull => exact ⟨_, rfl⟩
  | vBool b => exact ⟨_, rfl⟩
  | vInt n => exact ⟨_, rfl⟩
  | vStr s => exact ⟨_, rfl⟩
  | vList xs => exact ⟨_, rfl⟩

theorem filesFold_total (fs : List (String × List Nat)) (files : List Val)
    (h : files.all wtEntryB = true) : ∃ es, filesFold fs files = .ok es := by
  induction files with
  | nil => exact ⟨[], rfl⟩
  | cons f rest ih =>
    simp only [List.all_cons, Bool.and_eq_true] at h
    obtain ⟨e1, h1⟩ := checkFileEntry_total fs f h.1
    obtain ⟨e2, h2⟩ := ih h.2
    exact ⟨e1 ++ e2, by unfold filesFold; simp only [h1, h2]⟩

theorem check_file_metadata_total (kvs : List (String × Val)) (fs : List (String × List Nat))
    (h : (match List.lookup "files" kvs with
          | some (.vList files) => files.all wtEntryB
          | _ => true) = true) :
    ∃ es, _check_file_metadata (.vDict kvs) fs = .ok es := by
  unfold _check_file_metadata
  have hg : pyGetD (.vDict kvs) "files" (.vList []) = .ok ((List.lookup "files" kvs).getD (.vList [])) := rfl
  rw [hg]
  cases hf : List.lookup "files" kvs with
  | none => exact ⟨[], rfl⟩
  | some v =>
    rw [hf] at h
    cases v with
    | vList files => exact filesFold_total fs files h
    | vNull => exact ⟨[], rfl⟩
    | vBool b => exact ⟨[], rfl⟩
    | vInt n => exact ⟨[], rfl⟩
    | vStr s => exact ⟨[], rfl⟩
    | vDict kvs2 => exact ⟨[], rfl⟩

theorem ocErr_total (ident : String) (occs : List Val) (oc : Val)
    (h : wtStatsVal oc = true) : ∃ es, ocErr ident occs oc = .ok es := by
  unfold ocErr
  cases oc with
  | vNull => exact ⟨[], rfl⟩
  | vBool b => exact ⟨_, rfl⟩
  | vInt n => exact ⟨_, rfl⟩
  | vStr s =>
    obtain ⟨n, hn, _⟩ := coercibleB_ok (v := .vStr s) h
    simp only [hn]
    exact ⟨_, rfl⟩
  | vList xs => simp [wtStatsVal, coercibleB, pyIntE] at h
  | vDict kvs => simp [wtStatsVal, coercibleB, pyIntE] at h

theorem ulErr_total (ident : String) (occs : List Val) (ul : Val)
    (h : wtStatsVal ul = true) (hocc : occs.all wtOccB = true) :
    ∃ es, ulErr ident occs ul = .ok es := by
  unfold ulErr
  cases ul with
  | vNull => exact ⟨[], rfl⟩
  | vBool b => simp only [collectPairs_eq occs hocc, pyIntE]; exact ⟨_, rfl⟩
  | vInt n => simp only [collectPairs_eq occs hocc, pyIntE]; exact ⟨_, rfl⟩
  | vStr s =>
    obtain ⟨n, hn, _⟩ := coercibleB_ok (v := .vStr s) h
    simp only [collectPairs_eq occs hocc, hn]
    exact ⟨_, rfl⟩
  | vList xs => simp [wtStatsVal, coercibleB, pyIntE] at h
  | vDict kvs => simp [wtStatsVal, coercibleB, pyIntE] at h

theorem statsErrs_total (ident : String) (occs : List Val) (kvs : List (String × Val))
    (h : (match List.lookup "stats" kvs with
          | some (.vDict skvs) =>
            wtStatsVal ((List.lookup "occurrence_count" skvs).getD .vNull) &&
            wtStatsVal ((List.lookup "unique_line_count" skvs).getD .vNull)
          | _ => true) = true)
    (hocc : occs.all wtOccB = true) :
    ∃ es, statsErrs ident occs (.vDict kvs) = .ok es := by
  unfold statsErrs
  have hg : pyGetOpt (.vDict kvs) "stats" = .ok ((List.lookup "stats" kvs).getD .vNull) := rfl
  rw [hg]
  cases hs : List.lookup "stats" kvs with
  | none => exact ⟨[], rfl⟩
  | some v =>
    rw [hs] at h
    cases v with
    | vDict skvs =>
      rw [Bool.and_eq_true] at h
      obtain ⟨e3, h3⟩ := ocErr_total ident occs _ h.1
      obtain ⟨e4, h4⟩ := ulErr_total ident occs _ h.2 hocc
      simp only [Option.getD_some, h3, h4]
      exact ⟨_, rfl⟩
    | vNull => exact ⟨[], rfl⟩
    | vBool b => exact ⟨[], rfl⟩
    | vInt n => exact ⟨[], rfl⟩
    | vStr s => exact ⟨[], rfl⟩
    | vList xs => exact ⟨[], rfl⟩

theorem checkSymbolBody_total (ident : String) (occs : List Val) (kvs : List (String × Val))
    (hst : (match List.lookup "stats" kvs with
            | some (.vDict skvs) =>
              wtStatsVal ((List.lookup "occurrence_count" skvs).getD .vNull) &&
              wtStatsVal ((List.lookup "unique_line_count" skvs).getD .vNull)
            | _ => true) = true)
    (hocc : occs.all wtOccB = true) :
    ∃ es, checkSymbolBody ident occs (.vDict kvs) = .ok es := by
  obtain ⟨es, hes⟩ := statsErrs_total ident occs kvs hst hocc
  unfold checkSymbolBody
  simp only [hes]
  exact ⟨_, rfl⟩

theorem checkSymbol_total (s : Val) (h : wtSymbolB s = true) :
    ∃ es, checkSymbol s = .ok es := by
  cases s with
  | vDict kvs =>
    unfold wtSymbolB at h
    rw [Bool.and_eq_true, Bool.and_eq_true] at h
    obtain ⟨⟨_, hocc⟩, hst⟩ := h
    unfold checkSymbol
    have hg1 : pyGetD (.vDict kvs) "identifier" (.vStr "<missing>")
        = .ok ((List.lookup "identifier" kvs).getD (.vStr "<missing>")) := rfl
    rw [hg1]
    have hg2 : pyGetD (.vDict kvs) "occurrences" (.vList [])
        = .ok ((List.lookup "occurrences" kvs).getD (.vList [])) := rfl
    rw [hg2]
    cases ho : List.lookup "occurrences" kvs with
    | none =>
      simp only [Option.getD_none]
      exact checkSymbolBody_total _ [] kvs hst rfl
    | some v =>
      rw [ho] at hocc
      cases v with
      | vList occs =>
        simp only [Option.getD_some]
        exact checkSymbolBody_total _ occs kvs hst hocc
      | vNull => exact ⟨_, rfl⟩
      | vBool b => exact ⟨_, rfl⟩
      | vInt n => exact ⟨_, rfl⟩
      | vStr str => exact ⟨_, rfl⟩
      | vDict kvs2 => exact ⟨_, rfl⟩
  | vNull => simp [wtSymbolB] at h
  | vBool b => simp [wtSymbolB] at h
  | vInt n => simp [wtSymbolB] at h
  | vStr str => simp [wtSymbolB] at h
  | vList xs => simp [wtSymbolB] at h

theorem checkAllSymbols_total (symbols : List Val)
    (h : symbols.all wtSymbolB = true) : ∃ es, checkAllSymbols symbols = .ok es := by
  induction symbols with
  | nil => exact ⟨[], rfl⟩
  | cons s rest ih =>
    simp only [List.all_cons, Bool.and_eq_true] at h
    obtain ⟨e1, h1⟩ := checkSymbol_total s h.1
    obtain ⟨e2, h2⟩ := ih h.2
    exact ⟨e1 ++ e2, by unfold checkAllSymbols; simp only [h1, h2]⟩

theorem identsOf_strings (symbols : List Val) (h : symbols.all wtSymbolB = true) :
    ∃ strs : List String, identsOf symbols = .ok (strs.map Val.vStr) := by
  induction symbols with
  | nil => exact ⟨[], rfl⟩
  | cons s rest ih =>
    simp only [List.all_cons, Bool.and_eq_true] at h
    obtain ⟨strs, hrest⟩ := ih h.2
    have h1 := h.1
    cases s with
    | vDict kvs =>
      unfold wtSymbolB at h1
      rw [Bool.and_eq_true, Bool.and_eq_true] at h1
      obtain ⟨⟨hid, _⟩, _⟩ := h1
      unfold identsOf
      have hg : pyGetD (.vDict kvs) "identifier" (.vStr "")
          = .ok ((List.lookup "identifier" kvs).getD (.vStr "")) := rfl
      rw [hg]
      cases hi : List.lookup "identifier" kvs with
      | none =>
        refine ⟨"" :: strs, ?_⟩
        simp only [Option.getD_none, hrest]
        rfl
      | some v =>
        rw [hi] at hid
        cases v with
        | vStr t =>
          refine ⟨t :: strs, ?_⟩
          simp only [Option.getD_some, hrest]
          rfl
        | vNull => exact absurd hid (by simp)
        | vBool bb => exact absurd hid (by simp)
        | vInt n => exact absurd hid (by simp)
        | vList xs => exact absurd hid (by simp)
        | vDict kvs2 => exact absurd hid (by simp)
    | vNull => simp [wtSymbolB] at h1
    | vBool bb => simp [wtSymbolB] at h1
    | vInt n => simp [wtSymbolB] at h1
    | vStr t => simp [wtSymbolB] at h1
    | vList xs => simp [wtSymbolB] at h1

theorem check_symbol_index_doc_total (kvs : List (String × Val))
    (fs : List (String × List Nat)) (b : Bool)
    (h : wtDocB (.vDict kvs) = true) :
    ∃ es, check_symbol_index_doc (.vDict kvs) fs b = .ok es := by
  unfold wtDocB at h
  rw [Bool.and_eq_true] at h
  obtain ⟨hfiles, hsyms⟩ := h
  unfold check_symbol_index_doc
  have hmeta : ∃ ms, (if b then _check_file_metadata (.vDict kvs) fs else .ok []) = .ok ms := by
    cases b
    · exact ⟨[], rfl⟩
    · simpa using check_file_metadata_total kvs fs hfiles
  obtain ⟨ms, hms⟩ := hmeta
  rw [hms]
  have hg : pyGetD (.vDict kvs) "symbols" (.vList [])
      = .ok ((List.lookup "symbols" kvs).getD (.vList [])) := rfl
  rw [hg]
  cases hs : List.lookup "symbols" kvs with
  | none =>
    simp only [Option.getD_none]
    exact ⟨_, rfl⟩
  | some v =>
    rw [hs] at hsyms
    cases v with
    | vList symbols =>
      simp only [Option.getD_some]
      obtain ⟨strs, hid⟩ := identsOf_strings symbols hsyms
      obtain ⟨ses, hall⟩ := checkAllSymbols_total symbols hsyms
      simp only [hid, is_sortedE_strings, hall]
      exact ⟨_, rfl⟩
    | vNull => simp only [Option.getD_some]; exact ⟨_, rfl⟩
    | vBool bb => simp only [Option.getD_some]; exact ⟨_, rfl⟩
    | vInt n => simp only [Option.getD_some]; exact ⟨_, rfl⟩
    | vStr t => simp only [Option.getD_some]; exact ⟨_, rfl⟩
    | vDict kvs2 => simp only [Option.getD_some]; exact ⟨_, rfl⟩

theorem profileIdsOf_strings (idxs : List Val) (h : idxs.all wtIndexEntryB = true) :
    ∃ strs : List String, profileIdsOf idxs = .ok (strs.map Val.vStr) := by
  induction idxs with
  | nil => exact ⟨[], rfl⟩
  | cons idx rest ih =>
    simp only [List.all_cons, Bool.and_eq_true] at h
    obtain ⟨strs, hrest⟩ := ih h.2
    have h1 := h.1
    unfold wtIndexEntryB at h1
    rw [Bool.and_eq_true] at h1
    obtain ⟨hpid, _⟩ := h1
    cases idx with
    | vDict ikvs =>
      have hpid2 : (match List.lookup "profile_id" ikvs with
                    | none => true
                    | some (.vStr _) => true
                    | some _ => false) = true := hpid
      unfold profileIdsOf
      have hg : pyGetD (.vDict ikvs) "profile_id" (.vStr "")
          = .ok ((List.lookup "profile_id" ikvs).getD (.vStr "")) := rfl
      rw [hg]
      cases hi : List.lookup "profile_id" ikvs with
      | none =>
        refine ⟨"" :: strs, ?_⟩
        simp only [Option.getD_none, hrest]
        rfl
      | some v =>
        rw [hi] at hpid2
        cases v with
        | vStr t =>
          refine ⟨t :: strs, ?_⟩
          simp only [Option.getD_some, hrest]
          rfl
        | vNull => exact absurd hpid2 (by simp)
        | vBool bb => exact absurd hpid2 (by simp)
        | vInt n => exact absurd hpid2 (by simp)
        | vList xs => exact absurd hpid2 (by simp)
        | vDict kvs2 => exact absurd hpid2 (by simp)
    | vNull => exact absurd hpid (by simp)
    | vBool bb => exact absurd hpid (by simp)
    | vInt n => exact absurd hpid (by simp)
    | vStr t => exact absurd hpid (by simp)
    | vList xs => exact absurd hpid (by simp)

theorem checkIndexes_total (fs : List (String × List Nat)) (b : Bool) (idxs : List Val)
    (h : idxs.all wtIndexEntryB = true) :
    ∀ i, ∃ es, checkIndexes fs b i idxs = .ok es := by
  induction idxs with
  | nil => exact fun i => ⟨[], rfl⟩
  | cons idx rest ih =>
    intro i
    simp only [List.all_cons, Bool.and_eq_true] at h
    obtain ⟨es2, h2⟩ := ih h.2 (i + 1)
    have h1 := h.1
    unfold wtIndexEntryB at h1
    rw [Bool.and_eq_true] at h1
    obtain ⟨hpid, hdoc⟩ := h1
    cases idx with
    | vDict ikvs =>
      obtain ⟨es1, hc⟩ := check_symbol_index_doc_total ikvs fs b hdoc
      unfold checkIndexes checkOneIndex
      simp only [hc, h2]
      exact ⟨_, rfl⟩
    | vNull => exact absurd hpid (by simp)
    | vBool bb => exact absurd hpid (by simp)
    | vInt n => exact absurd hpid (by simp)
    | vStr t => exact absurd hpid (by simp)
    | vList xs => exact absurd hpid (by simp)

theorem check_project_index_total (kvs : List (String × Val))
    (fs : List (String × List Nat)) (b : Bool)
    (h : wtProjectB (.vDict kvs) = true) :
    ∃ es, check_project_index (.vDict kvs) fs b = .ok es := by
  unfold wtProjectB at h
  have h2 : (match List.lookup "indexes" kvs with
             | some (.vList idxs) => idxs.all wtIndexEntryB
             | _ => true) = true := h
  unfold check_project_index
  have hg : pyGetD (.vDict kvs) "indexes" (.vList [])
      = .ok ((List.lookup "indexes" kvs).getD (.vList [])) := rfl
  rw [hg]
  cases hi : List.lookup "indexes" kvs with
  | none =>
    simp only [Option.getD_none]
    exact ⟨_, rfl⟩
  | some v =>
    rw [hi] at h2
    cases v with
    | vList idxs =>
      simp only [Option.getD_some]
      obtain ⟨strs, hp⟩ := profileIdsOf_strings idxs h2
      obtain ⟨es, hidx⟩ := checkIndexes_total fs b idxs h2 0
      simp only [hp, is_sortedE_strings, hidx]
      exact ⟨_, rfl⟩
    | vNull => simp only [Option.getD_some]; exact ⟨_, rfl⟩
    | vBool bb => simp only [Option.getD_some]; exact ⟨_, rfl⟩
    | vInt n => simp only [Option.getD_some]; exact ⟨_, rfl⟩
    | vStr t => simp only [Option.getD_some]; exact ⟨_, rfl⟩
    | vDict kvs2 => simp only [Option.getD_some]; exact ⟨_, rfl⟩

theorem processDoc_total (doc : Val) (fs : List (String × List Nat)) (b : Bool)
    (h : wtTop doc = true) : ∃ es, processDoc doc fs b = .ok es := by
  unfold wtTop at h
  unfold processDoc
  cases hw : isProjectWrapper doc with
  | true =>
    rw [hw] at h
    simp only [if_pos rfl] at h ⊢
    cases doc with
    | vDict kvs => exact check_project_index_total kvs fs b h
    | vNull => simp [wtProjectB] at h
    | vBool bb => simp [wtProjectB] at h
    | vInt n => simp [wtProjectB] at h
    | vStr t => simp [wtProjectB] at h
    | vList xs => simp [wtProjectB] at h
  | false =>
    rw [hw] at h
    simp only [Bool.false_eq_true, if_false] at h ⊢
    cases doc with
    | vDict kvs => exact check_symbol_index_doc_total kvs fs b h
    | vNull => simp [wtDocB] at h
    | vBool bb => simp [wtDocB] at h
    | vInt n => simp [wtDocB] at h
    | vStr t => simp [wtDocB] at h
    | vList xs => simp [wtDocB] at h

theorem collectAllErrs_total (cs : List DocCase)
    (h : ∀ c ∈ cs, ∃ doc, c.parsed = .ok doc ∧ wtTop doc = true) :
    ∃ es, collectAllErrs cs = .ok es := by
  induction cs with
  | nil => exact ⟨[], rfl⟩
  | cons c rest ih =>
    obtain ⟨doc, hp, hwt⟩ := h c (by simp)
    obtain ⟨e2, h2⟩ := ih fun c' hc' => h c' (by simp [hc'])
    obtain ⟨e1, h1⟩ := processDoc_total doc c.fsys c.inputsDirExists hwt
    unfold collectAllErrs
    rw [hp]
    simp only [h1, h2]
    exact ⟨_, rfl⟩

/-- Claim C2 (corrected).  The positive part that actually holds: when every
discovered document parses and its content is well-typed (stats, bytes and
lines values None-or-int-coercible, records and entries dicts, identifiers
and profile ids strings), the whole pass completes normally — no exception
is raised anywhere.  (The claim's exception-freedom does NOT hold for
arbitrary parsed content, and a parse failure aborts the whole pass; see
the counterexample.) -/
theorem C2_well_typed_pass_completes (cs : List DocCase)
    (h : ∀ c ∈ cs, ∃ doc, c.parsed = .ok doc ∧ wtTop doc = true) :
    ∃ out, mainModel true cs = .ok out := by
  unfold mainModel
  rw [if_neg (by simp)]
  cases he : cs.isEmpty with
  | true => exact ⟨(1, none), by rw [if_pos rfl]⟩
  | false =>
    rw [if_neg (by simp [he])]
    obtain ⟨es, hes⟩ := collectAllErrs_total cs h
    rw [hes]
    cases hne : es.isEmpty
    · exact ⟨(1, none), by simp [hne]⟩
    · exact ⟨(0, some (okLine cs.length)), by simp [hne]⟩

/-- Claim C2 counterexample.  (i) A parsed document whose stats value is the
non-integer string `"abc"` raises an uncaught `ValueError` inside
`check_symbol_index_doc` — content of a parsed document CAN raise; (ii) the
same exception aborts the whole pass; (iii) a parse failure of the first
document aborts the entire pass — it is not reported-and-skipped with the
pass continuing over the remaining documents. -/
theorem C2_counterexample :
    check_symbol_index_doc
        (.vDict [("symbols", .vList [Val.vDict [("identifier", Val.vStr "x"),
          ("stats", .vDict [("occurrence_count", Val.vStr "abc")])]])]) [] false
      = .error PyErr.valueError
    ∧ mainModel true
        [⟨.ok (.vDict [("symbols", .vList [Val.vDict [("identifier", Val.vStr "x"),
          ("stats", .vDict [("occurrence_count", Val.vStr "abc")])]])]), [], false⟩]
      = .error PyErr.valueError
    ∧ mainModel true
        [⟨.error PyErr.valueError, [], false⟩, ⟨.ok (.vDict []), [], false⟩]
      = .error PyErr.valueError := ⟨rfl, rfl, rfl⟩

/-- Claim C2 witness.  A concrete well-typed two-document run completes
without an exception. -/
theorem C2_witness :
    ∃ out, mainModel true
      [⟨.ok (.vDict [("symbols", .vList [Val.vDict [("identifier", Val.vStr "x"),
         ("stats", .vDict [("occurrence_count", Val.vInt 0)])]])]), [], false⟩,
       ⟨.ok (.vDict [("schema_version", .vStr "2.3"), ("indexes", .vList [])]), [], true⟩]
      = .ok out := by
  apply C2_well_typed_pass_completes
  intro c hc
  simp only [List.mem_cons, List.mem_singleton] at hc
  rcases hc with hc | hc | hc
  · subst hc
    exact ⟨_, rfl, by decide⟩
  · subst hc
    exact ⟨_, rfl, by decide⟩
  · cases hc
